import Mathlib

/-!
Verification of the MechMapOnline room-state synchronization engine.

This file gives a shallow embedding of the server code
(src/server/db.py, src/server/repository.py, src/server/main.py):
the SQLite tables become lists of row structures, the repository
functions become pure store transformers, and the socket.io event
handlers become functions from a session, a store, the in-memory room
cache and the admin-room registry to a new state together with the list
of emitted events.  Timestamps are threaded as a Nat parameter.
-/

namespace MechMap

/-- Default hex fill color; rows with this color are not stored (sparse storage). -/
def defaultColor : String := "lightgray"

/-! ## Database rows (db.py schema) -/

/-- Row of the rooms table (room_id TEXT PRIMARY KEY, ..., version INTEGER DEFAULT 1). -/
structure RoomRow where
  room_id : String
  name : String
  owner : Option String
  has_password : Bool
  password_hash : Option String
  created_at : Nat
  last_activity : Nat
  version : Nat
deriving Repr, DecidableEq

/-- Row of the hexes table, PRIMARY KEY (room_id, hex_key). -/
structure HexRow where
  room_id : String
  hex_key : String
  fill_color : String
  updated_at : Nat
  updated_by : Option String
deriving Repr, DecidableEq

/-- The JSON payload of a line.  Only the fields the server ever reads are
modelled: the optional id and the optional start and end cell keys
(line_data.get("start", dict()).get("key") and the same for "end"). -/
structure LinePayload where
  id : Option String
  start_key : Option String
  end_key : Option String
deriving Repr, DecidableEq

/-- Row of the lines table (line_id TEXT PRIMARY KEY). -/
structure LineRow where
  room_id : String
  line_id : String
  payload : LinePayload
  created_at : Nat
  created_by : Option String
deriving Repr, DecidableEq

/-- Row of the units table (unit_id TEXT PRIMARY KEY), including the columns
added by the ensure_units_columns migration in db.py. -/
structure UnitRow where
  room_id : String
  unit_id : String
  name : String
  color : String
  hex_key : String
  created_at : Nat
  created_by : Option String
  moved_at : Option Nat
  moved_by : Option String
  icon_path : Option String
  tint_color : Option String
  description : Option String
  parent_unit_id : Option String
deriving Repr, DecidableEq

/-- Row of the users table; only the columns read by the handlers under
verification are modelled (username PRIMARY KEY, is_admin). -/
structure UserRow where
  username : String
  is_admin : Bool
deriving Repr, DecidableEq

/-- The persistent store: the four tables of the SQLite database that the
room mutation protocol touches. -/
structure Store where
  rooms : List RoomRow
  hexes : List HexRow
  lines : List LineRow
  units : List UnitRow
  users : List UserRow
deriving Repr, DecidableEq

/-! ## Repository operations (repository.py) -/

/-- SQL predicate room_id = ? AND hex_key = ? on a hex row. -/
def hexMatches (r k : String) (h : HexRow) : Bool :=
  h.room_id == r && h.hex_key == k

/-- update_hex: DELETE the row when the color is the default (sparse
storage), otherwise INSERT ... ON CONFLICT(room_id, hex_key) DO UPDATE. -/
def update_hex (s : Store) (room_id hex_key fill_color : String) (now : Nat)
    (updated_by : Option String) : Store :=
  if fill_color = defaultColor then
    { s with hexes := s.hexes.filter (fun h => !(hexMatches room_id hex_key h)) }
  else if s.hexes.any (hexMatches room_id hex_key) then
    { s with hexes := s.hexes.map (fun h =>
        if hexMatches room_id hex_key h then
          { h with fill_color := fill_color, updated_at := now, updated_by := updated_by }
        else h) }
  else
    { s with hexes := s.hexes ++
        [{ room_id := room_id, hex_key := hex_key, fill_color := fill_color,
           updated_at := now, updated_by := updated_by }] }

/-- erase_hex: DELETE FROM hexes WHERE room_id = ? AND hex_key = ?. -/
def erase_hex (s : Store) (room_id hex_key : String) : Store :=
  { s with hexes := s.hexes.filter (fun h => !(hexMatches room_id hex_key h)) }

/-- add_line: INSERT INTO lines. -/
def add_line (s : Store) (room_id line_id : String) (line_data : LinePayload)
    (now : Nat) (created_by : Option String) : Store :=
  { s with lines := s.lines ++
      [{ room_id := room_id, line_id := line_id, payload := line_data,
         created_at := now, created_by := created_by }] }

/-- Does the given line payload reference the cell key at its start or end
endpoint, as tested by delete_lines_by_hex. -/
def lineTouches (hex_key : String) (p : LinePayload) : Bool :=
  p.start_key == some hex_key || p.end_key == some hex_key

/-- delete_lines_by_hex: select the ids of the lines of the room whose start
or end key equals hex_key, then DELETE FROM lines WHERE line_id = ? for each
(note: the DELETE statement filters by line_id only, not by room_id; line_id
is the PRIMARY KEY of the lines table). -/
def delete_lines_by_hex (s : Store) (room_id hex_key : String) : Store :=
  let ids := (s.lines.filter
      (fun l => l.room_id == room_id && lineTouches hex_key l.payload)).map
      (fun l => l.line_id)
  { s with lines := s.lines.filter (fun l => !(ids.contains l.line_id)) }

/-- SQL predicate room_id = ? AND unit_id = ? on a unit row. -/
def unitMatches (r uid : String) (u : UnitRow) : Bool :=
  u.room_id == r && u.unit_id == uid

/-- Client-supplied unit fields that the add_unit INSERT consumes
(unit_data["name"], unit_data["color"], unit_data["hex_key"]). -/
structure UnitInput where
  id : Option String
  name : String
  color : String
  hex_key : String
  parent_unit_id : Option String
deriving Repr, DecidableEq

/-- add_unit: INSERT INTO units (room_id, unit_id, name, color, hex_key,
created_at, created_by); the icon, tint, description and parent columns are
not part of the INSERT and stay NULL. -/
def add_unit (s : Store) (room_id unit_id : String) (unit_data : UnitInput)
    (now : Nat) (created_by : Option String) : Store :=
  { s with units := s.units ++
      [{ room_id := room_id, unit_id := unit_id, name := unit_data.name,
         color := unit_data.color, hex_key := unit_data.hex_key,
         created_at := now, created_by := created_by, moved_at := none,
         moved_by := none, icon_path := none, tint_color := none,
         description := none, parent_unit_id := none }] }

/-- move_unit: UPDATE units SET hex_key = ?, moved_at = ?, moved_by = ?
WHERE room_id = ? AND unit_id = ?.  Only the addressed unit row is updated;
no cascade of any kind happens at the repository layer. -/
def move_unit (s : Store) (room_id unit_id new_hex_key : String) (now : Nat)
    (moved_by : Option String) : Store :=
  { s with units := s.units.map (fun u =>
      if unitMatches room_id unit_id u then
        { u with hex_key := new_hex_key, moved_at := some now, moved_by := moved_by }
      else u) }

/-- delete_unit: DELETE FROM units WHERE room_id = ? AND unit_id = ?. -/
def delete_unit (s : Store) (room_id unit_id : String) : Store :=
  { s with units := s.units.filter (fun u => !(unitMatches room_id unit_id u)) }

/-- get_room: SELECT * FROM rooms WHERE room_id = ? (room_id is the PRIMARY
KEY, so the first match is the only match). -/
def get_room (s : Store) (room_id : String) : Option RoomRow :=
  s.rooms.find? (fun rm => rm.room_id == room_id)

/-- update_room_activity: UPDATE rooms SET last_activity = ? WHERE room_id = ?. -/
def update_room_activity (s : Store) (room_id : String) (now : Nat) : Store :=
  { s with rooms := s.rooms.map (fun rm =>
      if rm.room_id == room_id then { rm with last_activity := now } else rm) }

/-- increment_room_version: UPDATE rooms SET version = version + 1
WHERE room_id = ?, then SELECT version ... and return it, or 1 when the
room does not exist. -/
def increment_room_version (s : Store) (room_id : String) : Store × Nat :=
  let s1 : Store := { s with rooms := s.rooms.map (fun rm =>
      if rm.room_id == room_id then { rm with version := rm.version + 1 } else rm) }
  match s1.rooms.find? (fun rm => rm.room_id == room_id) with
  | some rm => (s1, rm.version)
  | none => (s1, 1)

/-- delete_room: DELETE FROM rooms WHERE room_id = ?.  The child tables
declare ON DELETE CASCADE, but only this single DELETE statement is issued;
whether the child rows go away depends on the foreign-key pragma of the
connection, and no claim under verification depends on it, so only the
rooms-table effect is modelled. -/
def delete_room (s : Store) (room_id : String) : Store :=
  { s with rooms := s.rooms.filter (fun rm => !(rm.room_id == room_id)) }

/-- Python or on an optional string: the left operand wins only when it is
present and truthy (a nonempty string). -/
def pyOrStr (a : Option String) (b : String) : String :=
  match a with
  | some v => if v = "" then b else v
  | none => b

/-- Python or between two optional strings, with falsiness of the empty
string, as in unit.get("id") or unit.get("unit_id"). -/
def pyOrOpt (a b : Option String) : Option String :=
  match a with
  | some v => if v = "" then b else some v
  | none => b

/-- One entry of the hex_data argument to replace_room_state: the client
dict for one cell, of which only hex_info.get("fillColor", "lightgray")
is read. -/
structure HexInfo where
  fillColor : Option String
deriving Repr, DecidableEq

/-- One entry of the units argument to replace_room_state. -/
structure ReplUnit where
  id : Option String
  unit_id : Option String
  name : String
  color : String
  hex_key : String
deriving Repr, DecidableEq

/-- replace_room_state: in one transaction, delete all hexes, lines and
units of the room, then re-insert the hexes with a non-default color, all
the lines (generating room_line_idx ids for lines without one) and all the
units that carry an id. -/
def replace_room_state (s : Store) (room_id : String)
    (hex_data : List (String × HexInfo)) (lines : List LinePayload)
    (units : List ReplUnit) (now : Nat) (updated_by : Option String) : Store :=
  let s1 : Store := { s with
    hexes := s.hexes.filter (fun h => !(h.room_id == room_id)),
    lines := s.lines.filter (fun l => !(l.room_id == room_id)),
    units := s.units.filter (fun u => !(u.room_id == room_id)) }
  let newHexes : List HexRow := hex_data.filterMap (fun p =>
    let c := p.2.fillColor.getD defaultColor
    if c ≠ defaultColor then
      some { room_id := room_id, hex_key := p.1, fill_color := c,
             updated_at := now, updated_by := updated_by }
    else none)
  let newLines : List LineRow := lines.enum.map (fun p =>
    let lid := pyOrStr p.2.id (room_id ++ "_line_" ++ toString p.1)
    { room_id := room_id, line_id := lid, payload := p.2,
      created_at := now, created_by := updated_by })
  let newUnits : List UnitRow := units.filterMap (fun u =>
    match pyOrOpt u.id u.unit_id with
    | none => none
    | some uid =>
      if uid = "" then none
      else some { room_id := room_id, unit_id := uid, name := u.name,
                  color := u.color, hex_key := u.hex_key, created_at := now,
                  created_by := updated_by, moved_at := none, moved_by := none,
                  icon_path := none, tint_color := none, description := none,
                  parent_unit_id := none })
  { s1 with hexes := s1.hexes ++ newHexes, lines := s1.lines ++ newLines,
            units := s1.units ++ newUnits }

/-- Patch argument of the unit_update event (name/icon/tint/description
field updates; a missing field is left unchanged). -/
structure UnitPatch where
  name : Option String
  icon_path : Option String
  tint_color : Option String
  description : Option String
deriving Repr, DecidableEq

/-- Modelled from the spec: update_unit is imported by main.py from the
repository layer but its definition is not part of the provided sources.
Section 4.1 of the spec lists an update-unit store operation and the
unit_update handler docstring describes it as a field update
(name/icon/tint/description) of one unit, so it is modelled as an UPDATE
of the present patch fields on the row with the given room and unit id. -/
def update_unit (s : Store) (room_id unit_id : String) (patch : UnitPatch)
    (_updated_by : Option String) : Store :=
  { s with units := s.units.map (fun u =>
      if unitMatches room_id unit_id u then
        { u with name := (patch.name).getD u.name,
                 icon_path := match patch.icon_path with
                   | some v => some v
                   | none => u.icon_path,
                 tint_color := match patch.tint_color with
                   | some v => some v
                   | none => u.tint_color,
                 description := match patch.description with
                   | some v => some v
                   | none => u.description }
      else u) }

/-- Modelled from the spec: reparent_unit is imported by main.py but its
definition is not part of the provided sources.  The spec describes an
optional parent-unit reference for grouping and the unit_reparent handler
passes a parent id and an optional hex key, so it is modelled as setting
parent_unit_id (none detaches) and, when a hex key is supplied, the
anchoring cell of the unit. -/
def reparent_unit (s : Store) (room_id unit_id : String)
    (parent_unit_id : Option String) (hex_key : Option String)
    (_moved_by : Option String) : Store :=
  { s with units := s.units.map (fun u =>
      if unitMatches room_id unit_id u then
        { u with parent_unit_id := parent_unit_id,
                 hex_key := (hex_key).getD u.hex_key }
      else u) }

/-- Modelled from the spec: get_unit is imported by main.py but its
definition is not part of the provided sources.  It is the point read of
one unit row by room and unit id, returning None when absent. -/
def get_unit (s : Store) (room_id unit_id : String) : Option UnitRow :=
  s.units.find? (unitMatches room_id unit_id)

/-! ## Room state snapshot (repository.get_room_state) -/

/-- One unit as rendered by get_room_state: the SELECT lists unit_id, name,
color, hex_key, created_by, created_at, moved_by, moved_at, and the moved
fields are attached only when moved_by is truthy. -/
structure UnitView where
  id : String
  name : String
  color : String
  hex_key : String
  created_by : Option String
  created_at : Nat
  moved_by : Option String
  moved_at : Option Nat
deriving Repr, DecidableEq

/-- Conversion of a stored unit row to its get_room_state rendering. -/
def unitView (u : UnitRow) : UnitView :=
  let base : UnitView :=
    { id := u.unit_id, name := u.name, color := u.color, hex_key := u.hex_key,
      created_by := u.created_by, created_at := u.created_at,
      moved_by := none, moved_at := none }
  match u.moved_by with
  | some m => if m ≠ "" then { base with moved_by := some m, moved_at := u.moved_at } else base
  | none => base

/-- Full room snapshot returned by get_room_state. -/
structure RoomState where
  name : String
  hex_data : List (String × String)
  lines : List LinePayload
  units : List UnitView
  created_at : Nat
  last_activity : Nat
  owner : Option String
  has_password : Bool
  password_hash : Option String
  version : Nat
deriving Repr, DecidableEq

/-- get_room_state: the room metadata plus its hexes (as the dict hex_key to
fillColor), lines and units; raises (here: none) when the room is absent.
The SQL ORDER BY created_at clauses only permute the line and unit lists
and are not modelled; no property under verification is order sensitive. -/
def get_room_state (s : Store) (room_id : String) : Option RoomState :=
  (get_room s room_id).map (fun room =>
    { name := room.name,
      hex_data := (s.hexes.filter (fun h => h.room_id == room_id)).map
        (fun h => (h.hex_key, h.fill_color)),
      lines := (s.lines.filter (fun l => l.room_id == room_id)).map
        (fun l => l.payload),
      units := (s.units.filter (fun u => u.room_id == room_id)).map unitView,
      created_at := room.created_at, last_activity := room.last_activity,
      owner := room.owner, has_password := room.has_password,
      password_hash := room.password_hash, version := room.version })

/-! ## Python dict as an association list -/

/-- Dict lookup d.get(k): the first (and, for dict semantics, only) binding. -/
def dictGet? {α : Type} (d : List (String × α)) (k : String) : Option α :=
  (d.find? (fun p => p.1 == k)).map (fun p => p.2)

/-- Dict assignment d[k] = v: update in place when the key is present,
append at the end otherwise (insertion order is preserved). -/
def dictSet {α : Type} (d : List (String × α)) (k : String) (v : α) :
    List (String × α) :=
  if d.any (fun p => p.1 == k) then
    d.map (fun p => if p.1 == k then (k, v) else p)
  else d ++ [(k, v)]

/-- In-place mutation of the value bound to a key, as in d[k].append(...). -/
def dictModify {α : Type} (d : List (String × α)) (k : String) (f : α → α) :
    List (String × α) :=
  d.map (fun p => if p.1 == k then (p.1, f p.2) else p)

/-- Dict deletion del d[k]. -/
def dictDel {α : Type} (d : List (String × α)) (k : String) :
    List (String × α) :=
  d.filter (fun p => !(p.1 == k))

/-! ## Admin rooms and the aggregation engine (main.py) -/

/-- Per-room toggle entry of an admin room
(room_id to enabled flag, room name and cached counts). -/
structure RoomToggle where
  enabled : Bool
  room_name : String
  hex_count : Nat
  line_count : Nat
  unit_count : Nat
deriving Repr, DecidableEq

/-- An admin room; of its fields only the room_toggles dict is read by the
code under verification. -/
structure AdminRoom where
  room_toggles : List (String × RoomToggle)
deriving Repr, DecidableEq

/-- The global admin_rooms registry. -/
abbrev Admins := List (String × AdminRoom)

/-- One per-room contribution record appended to the rooms list of a
composite hex entry. -/
structure RoomContribution where
  room_id : String
  room_name : String
  fillColor : String
deriving Repr, DecidableEq

/-- One cell of the composite admin view: the primary fillColor plus the
per-room contributor list. -/
structure AggEntry where
  fillColor : String
  rooms : List RoomContribution
deriving Repr, DecidableEq

/-- A line of the composite admin view: the original payload tagged with its
source room and re-identified as room_id underscore original id. -/
structure AggLine where
  payload : LinePayload
  room_id : String
  room_name : String
  line_id : String
deriving Repr, DecidableEq

/-- A unit of the composite admin view, re-identified and marked read-only. -/
structure AggUnit where
  unit : UnitView
  room_id : String
  room_name : String
  unit_id : String
  is_read_only : Bool
deriving Repr, DecidableEq

/-- The merged view produced by get_aggregated_room_data. -/
structure AggData where
  hex_data : List (String × AggEntry)
  lines : List AggLine
  units : List AggUnit
deriving Repr, DecidableEq

/-- The per-cell step of the hex merge: create the base entry on first
sight of the key (with the color of this room as read from the snapshot),
then, when the color is truthy and non-default, append this room to the
contributor list and promote the color to primary when the primary is
still the default. -/
def mergeHexEntry (agg : List (String × AggEntry)) (room_id room_name hex_key c : String) :
    List (String × AggEntry) :=
  let agg1 := if (dictGet? agg hex_key).isSome then agg
              else dictSet agg hex_key { fillColor := c, rooms := [] }
  if c ≠ "" ∧ c ≠ defaultColor then
    dictModify agg1 hex_key (fun e =>
      let e1 : AggEntry := { e with rooms := e.rooms ++ [⟨room_id, room_name, c⟩] }
      if e1.fillColor = defaultColor then { e1 with fillColor := c } else e1)
  else agg1

/-- Merge the snapshot of one enabled room into the accumulated composite. -/
def mergeRoomIntoAgg (a : AggData) (room_id room_name : String) (st : RoomState) :
    AggData :=
  { hex_data := st.hex_data.foldl
      (fun agg p => mergeHexEntry agg room_id room_name p.1 p.2) a.hex_data,
    lines := a.lines ++ st.lines.map (fun line =>
      { payload := line, room_id := room_id, room_name := room_name,
        line_id := room_id ++ "_" ++ (line.id).getD "line" }),
    units := a.units ++ st.units.map (fun u =>
      { unit := u, room_id := room_id, room_name := room_name,
        unit_id := room_id ++ "_" ++ u.id, is_read_only := true }) }

/-- get_aggregated_room_data: an empty composite when the admin room is
unknown, otherwise a fold over the toggle dict in insertion order that
merges every enabled room.  The source fetches get_room_state before
checking get_room, so a missing enabled room raises ValueError (here: the
whole computation is none); the get_room recheck can then only succeed and
its continue branch is kept for faithfulness.  The loop body is the
aggStep helper below. -/
def aggStep (s : Store) (acc : Option AggData) (p : String × RoomToggle) : Option AggData :=
  acc.bind (fun a =>
    if p.2.enabled then
      match get_room_state s p.1 with
      | none => none
      | some st =>
        match get_room s p.1 with
        | none => some a
        | some meta => some (mergeRoomIntoAgg a p.1 meta.name st)
    else some a)

def get_aggregated_room_data (s : Store) (admins : Admins) (admin_room_id : String) :
    Option AggData :=
  match dictGet? admins admin_room_id with
  | none => some ⟨[], [], []⟩
  | some ar => ar.room_toggles.foldl (aggStep s) (some ⟨[], [], []⟩)

/-! ## Sessions, emitted events and the in-memory room cache (main.py) -/

/-- One connected session (user_sessions[sid]). -/
structure Session where
  sid : String
  room_id : Option String
  user_name : String
  username : Option String
  is_authenticated : Bool
  is_admin_room : Bool
deriving Repr, DecidableEq

/-- Recipient of a sio.emit call: one sid, a whole room, or a whole room
minus the skip_sid. -/
inductive EmitTarget where
  | toSid (sid : String)
  | toRoom (room_id : String)
  | toRoomSkip (room_id : String) (skip_sid : String)
deriving Repr, DecidableEq

/-- One emitted socket event.  Of the payload only the room_version field is
modelled; the remaining payload fields are examined by the claims through
the store and aggregation functions directly. -/
structure Emit where
  event : String
  target : EmitTarget
  room_version : Option Nat
deriving Repr, DecidableEq

/-- One unit dict held in the in-memory cache (rooms[room_id]["units"]).
The fields the handlers read or write are modelled; dict keys never
accessed by the code under verification are omitted. -/
structure CacheUnit where
  id : String
  name : String
  color : String
  hex_key : String
  parent_unit_id : Option String
  moved_by : Option String
  moved_at : Option Nat
deriving Repr, DecidableEq

/-- One entry of the in-memory rooms cache.  The hex_data values are the
fillColor strings; users maps to the list of member sids. -/
structure CacheRoom where
  name : String
  hex_data : List (String × String)
  lines : List LinePayload
  units : List CacheUnit
  users : List String
  last_activity : Nat
deriving Repr, DecidableEq

/-- The entry the handlers create on a cache miss:
dict(hex_data = dict(), lines = [], units = []). -/
def emptyCacheRoom : CacheRoom :=
  { name := "", hex_data := [], lines := [], units := [], users := [], last_activity := 0 }

/-- The global in-memory rooms cache (the module-level rooms dict). -/
abbrev Cache := List (String × CacheRoom)

/-- Update the first element satisfying the predicate and stop, as a Python
for loop with a break does. -/
def updateFirst {α : Type} (p : α → Bool) (f : α → α) : List α → List α
  | [] => []
  | a :: as => if p a then f a :: as else a :: updateFirst p f as

/-- is_admin_user: username must be truthy; the database row wins and the
in-memory users_db dict is the backward-compatibility fallback. -/
def is_admin_user (dbUsers musers : List UserRow) (username : Option String) : Bool :=
  match username with
  | none => false
  | some u =>
    if u = "" then false
    else
      match dbUsers.find? (fun x => x.username == u) with
      | some user => user.is_admin
      | none => ((musers.find? (fun x => x.username == u)).map (fun x => x.is_admin)).getD false

/-- The owner test of handle_replace_room_state:
room_meta.get("owner") and user_data.get("username") == room_meta["owner"]
(a missing or empty owner is falsy; comparing None with a string is False). -/
def ownerCheck (owner : Option String) (username : Option String) : Bool :=
  match owner with
  | none => false
  | some o => if o = "" then false else username == some o

/-- Number of cache hexes whose fillColor is truthy and non-default, as
counted when refreshing admin toggle counts. -/
def cacheHexCount (cr : CacheRoom) : Nat :=
  cr.hex_data.countP (fun p => p.2 != "" && p.2 != defaultColor)

/-- notify_admin_rooms_of_room_update: for every admin room whose toggle
dict has the updated room enabled, refresh the cached counts from the
in-memory room entry (the callers have just ensured it exists) and emit
admin_room_data_updated to that admin room.  The recomputed aggregate fed
into the payload is get_aggregated_room_data, which the claims examine
directly. -/
def notify_admin_rooms_of_room_update (cache : Cache) (admins : Admins)
    (rid : String) : Admins × List Emit :=
  admins.foldl
    (fun acc p =>
      match dictGet? p.2.room_toggles rid with
      | some tog =>
        if tog.enabled then
          let cr := (dictGet? cache rid).getD emptyCacheRoom
          let admins1 := dictModify acc.1 p.1 (fun a =>
            { a with room_toggles := dictModify a.room_toggles rid (fun t =>
                { t with hex_count := cacheHexCount cr,
                         line_count := cr.lines.length,
                         unit_count := cr.units.length }) })
          (admins1, acc.2 ++ [⟨"admin_room_data_updated", EmitTarget.toRoom p.1, none⟩])
        else acc
      | none => acc)
    (admins, [])

/-- Result of one event handler: the stores after the event, the events it
emitted in order, and the room_version returned by increment_room_version
when the pipeline reached the persist step (none when the mutation was
rejected before persisting). -/
structure HOut where
  store : Store
  cache : Cache
  admins : Admins
  emits : List Emit
  version : Option Nat
deriving Repr, DecidableEq

/-! ## Mutating event handlers (main.py) -/

/-- handle_hex_update: guard (session in a room, not an admin-overlay
session), persist via update_hex, touch activity, bump the version, mirror
into the cache, broadcast hex_updated to the room excluding the sender,
then notify admin rooms. -/
def handle_hex_update (sess : Session) (s : Store) (cache : Cache) (admins : Admins)
    (now : Nat) (hex_key fill_color : String) : HOut :=
  match sess.room_id with
  | none => ⟨s, cache, admins, [], none⟩
  | some room_id =>
    if sess.is_admin_room then
      ⟨s, cache, admins, [⟨"admin_error", EmitTarget.toSid sess.sid, none⟩], none⟩
    else
      let s1 := update_hex s room_id hex_key fill_color now (some sess.user_name)
      let s2 := update_room_activity s1 room_id now
      let sv := increment_room_version s2 room_id
      let c1 := if (dictGet? cache room_id).isSome then cache
                else dictSet cache room_id emptyCacheRoom
      let c2 := dictModify c1 room_id (fun cr =>
        { cr with hex_data := dictSet cr.hex_data hex_key fill_color,
                  last_activity := now })
      let na := notify_admin_rooms_of_room_update c2 admins room_id
      ⟨sv.1, c2, na.1,
        ⟨"hex_updated", EmitTarget.toRoomSkip room_id sess.sid, some sv.2⟩ :: na.2,
        some sv.2⟩

/-- handle_line_add: generate a line id when the client supplied none (the
generated id embeds the event-loop time), persist, bump, mirror, broadcast
line_added to the room excluding the sender. -/
def handle_line_add (sess : Session) (s : Store) (cache : Cache) (admins : Admins)
    (now : Nat) (line : LinePayload) : HOut :=
  match sess.room_id with
  | none => ⟨s, cache, admins, [], none⟩
  | some room_id =>
    if sess.is_admin_room then
      ⟨s, cache, admins, [⟨"admin_error", EmitTarget.toSid sess.sid, none⟩], none⟩
    else
      let line_id := pyOrStr line.id (room_id ++ "_line_" ++ toString now)
      let line_data : LinePayload := { line with id := some line_id }
      let s1 := add_line s room_id line_id line_data now (some sess.user_name)
      let s2 := update_room_activity s1 room_id now
      let sv := increment_room_version s2 room_id
      let c1 := if (dictGet? cache room_id).isSome then cache
                else dictSet cache room_id emptyCacheRoom
      let c2 := dictModify c1 room_id (fun cr =>
        { cr with lines := cr.lines ++ [line_data], last_activity := now })
      let na := notify_admin_rooms_of_room_update c2 admins room_id
      ⟨sv.1, c2, na.1,
        ⟨"line_added", EmitTarget.toRoomSkip room_id sess.sid, some sv.2⟩ :: na.2,
        some sv.2⟩

/-- handle_hex_erase: erase the hex row, cascade-delete the lines touching
the cell (units are untouched), bump, refresh the cache from the database
snapshot, broadcast hex_erased to the room excluding the sender.  The
snapshot read raises when the room row is absent (here: no cache update and
no emit; the database writes before it stand, as in the source). -/
def handle_hex_erase (sess : Session) (s : Store) (cache : Cache) (admins : Admins)
    (now : Nat) (hex_key : String) : HOut :=
  match sess.room_id with
  | none => ⟨s, cache, admins, [], none⟩
  | some room_id =>
    if sess.is_admin_room then
      ⟨s, cache, admins, [⟨"admin_error", EmitTarget.toSid sess.sid, none⟩], none⟩
    else
      let s1 := erase_hex s room_id hex_key
      let s2 := delete_lines_by_hex s1 room_id hex_key
      let s3 := update_room_activity s2 room_id now
      let sv := increment_room_version s3 room_id
      match get_room_state sv.1 room_id with
      | none => ⟨sv.1, cache, admins, [], some sv.2⟩
      | some st =>
        let c1 := if (dictGet? cache room_id).isSome then cache
                  else dictSet cache room_id emptyCacheRoom
        let c2 := dictModify c1 room_id (fun cr =>
          { cr with
              hex_data := if (dictGet? cr.hex_data hex_key).isSome then
                            dictSet cr.hex_data hex_key defaultColor
                          else cr.hex_data,
              lines := st.lines, last_activity := now })
        let na := notify_admin_rooms_of_room_update c2 admins room_id
        ⟨sv.1, c2, na.1,
          ⟨"hex_erased", EmitTarget.toRoomSkip room_id sess.sid, some sv.2⟩ :: na.2,
          some sv.2⟩

/-- handle_unit_add: assign a server id when the client omitted one (fresh
stands for the generated uuid), persist, bump, mirror, and broadcast
unit_added to the whole room, the sender included (the one echo-back
confirmation in the protocol). -/
def handle_unit_add (sess : Session) (s : Store) (cache : Cache) (admins : Admins)
    (now : Nat) (fresh : String) (u : UnitInput) : HOut :=
  match sess.room_id with
  | none => ⟨s, cache, admins, [], none⟩
  | some room_id =>
    if sess.is_admin_room then
      ⟨s, cache, admins, [⟨"admin_error", EmitTarget.toSid sess.sid, none⟩], none⟩
    else
      let unit_id := pyOrStr u.id fresh
      let s1 := add_unit s room_id unit_id u now (some sess.user_name)
      let s2 := update_room_activity s1 room_id now
      let sv := increment_room_version s2 room_id
      let cu : CacheUnit :=
        { id := unit_id, name := u.name, color := u.color,
          hex_key := u.hex_key, parent_unit_id := u.parent_unit_id,
          moved_by := none, moved_at := none }
      let c1 := if (dictGet? cache room_id).isSome then cache
                else dictSet cache room_id emptyCacheRoom
      let c2 := dictModify c1 room_id (fun cr =>
        { cr with units := cr.units ++ [cu], last_activity := now })
      let na := notify_admin_rooms_of_room_update c2 admins room_id
      ⟨sv.1, c2, na.1,
        ⟨"unit_added", EmitTarget.toRoom room_id, some sv.2⟩ :: na.2,
        some sv.2⟩

/-- Merge of a freshly read unit row over a cached unit dict, as in
rooms[room_id]["units"][idx] = dict(**unit, **updated). -/
def mergeCacheUnit (_old : CacheUnit) (r : UnitRow) : CacheUnit :=
  { id := r.unit_id, name := r.name, color := r.color, hex_key := r.hex_key,
    parent_unit_id := r.parent_unit_id, moved_by := r.moved_by, moved_at := r.moved_at }

/-- handle_unit_update: guard (including a truthy unit id; the empty string
stands for a missing or falsy one), persist the patch, bump, re-read the
unit (a vanished unit aborts before the broadcast, after the version bump),
mirror, and emit unit_updated to the whole room, sender included. -/
def handle_unit_update (sess : Session) (s : Store) (cache : Cache) (admins : Admins)
    (now : Nat) (unit_id : String) (patch : UnitPatch) : HOut :=
  match sess.room_id with
  | none => ⟨s, cache, admins, [], none⟩
  | some room_id =>
    if sess.is_admin_room then
      ⟨s, cache, admins, [⟨"admin_error", EmitTarget.toSid sess.sid, none⟩], none⟩
    else if unit_id = "" then ⟨s, cache, admins, [], none⟩
    else
      let s1 := update_unit s room_id unit_id patch (some sess.user_name)
      let s2 := update_room_activity s1 room_id now
      let sv := increment_room_version s2 room_id
      match get_unit sv.1 room_id unit_id with
      | none => ⟨sv.1, cache, admins, [], some sv.2⟩
      | some updated =>
        let c1 := if (dictGet? cache room_id).isSome then cache
                  else dictSet cache room_id emptyCacheRoom
        let c2 := dictModify c1 room_id (fun cr =>
          let units1 := updateFirst (fun cu => cu.id == unit_id)
            (fun cu => mergeCacheUnit cu updated) cr.units
          { cr with units := units1, last_activity := now })
        let na := notify_admin_rooms_of_room_update c2 admins room_id
        ⟨sv.1, c2, na.1,
          ⟨"unit_updated", EmitTarget.toRoom room_id, some sv.2⟩ :: na.2,
          some sv.2⟩

/-- handle_unit_reparent: same pipeline as unit_update, persisting the
parent change, and emitting unit_updated to the whole room, sender
included. -/
def handle_unit_reparent (sess : Session) (s : Store) (cache : Cache) (admins : Admins)
    (now : Nat) (unit_id : String) (parent_unit_id : Option String)
    (hex_key : Option String) : HOut :=
  match sess.room_id with
  | none => ⟨s, cache, admins, [], none⟩
  | some room_id =>
    if sess.is_admin_room then
      ⟨s, cache, admins, [⟨"admin_error", EmitTarget.toSid sess.sid, none⟩], none⟩
    else if unit_id = "" then ⟨s, cache, admins, [], none⟩
    else
      let s1 := reparent_unit s room_id unit_id parent_unit_id hex_key (some sess.user_name)
      let s2 := update_room_activity s1 room_id now
      let sv := increment_room_version s2 room_id
      match get_unit sv.1 room_id unit_id with
      | none => ⟨sv.1, cache, admins, [], some sv.2⟩
      | some updated =>
        let c1 := if (dictGet? cache room_id).isSome then cache
                  else dictSet cache room_id emptyCacheRoom
        let c2 := dictModify c1 room_id (fun cr =>
          let units1 := updateFirst (fun cu => cu.id == unit_id)
            (fun cu => mergeCacheUnit cu updated) cr.units
          { cr with units := units1, last_activity := now })
        let na := notify_admin_rooms_of_room_update c2 admins room_id
        ⟨sv.1, c2, na.1,
          ⟨"unit_updated", EmitTarget.toRoom room_id, some sv.2⟩ :: na.2,
          some sv.2⟩

/-- handle_unit_move: persist the single-row move (no cascade reaches the
database), bump, then cascade inside the cache only: the first cached unit
with the id is moved, then every cached unit whose parent_unit_id is the
moved id is moved too; broadcast unit_moved to the room excluding the
sender. -/
def handle_unit_move (sess : Session) (s : Store) (cache : Cache) (admins : Admins)
    (now : Nat) (unit_id new_hex_key : String) : HOut :=
  match sess.room_id with
  | none => ⟨s, cache, admins, [], none⟩
  | some room_id =>
    if sess.is_admin_room then
      ⟨s, cache, admins, [⟨"admin_error", EmitTarget.toSid sess.sid, none⟩], none⟩
    else
      let s1 := move_unit s room_id unit_id new_hex_key now (some sess.user_name)
      let s2 := update_room_activity s1 room_id now
      let sv := increment_room_version s2 room_id
      let c1 := if (dictGet? cache room_id).isSome then cache
                else dictSet cache room_id emptyCacheRoom
      let c2 := dictModify c1 room_id (fun cr =>
        { cr with
            units :=
              (updateFirst (fun cu => cu.id == unit_id)
                (fun cu => { cu with hex_key := new_hex_key,
                                     moved_by := some sess.user_name,
                                     moved_at := some now }) cr.units).map
                (fun cu => if cu.parent_unit_id == some unit_id then
                    { cu with hex_key := new_hex_key,
                              moved_by := some sess.user_name,
                              moved_at := some now }
                  else cu),
            last_activity := now })
      let na := notify_admin_rooms_of_room_update c2 admins room_id
      ⟨sv.1, c2, na.1,
        ⟨"unit_moved", EmitTarget.toRoomSkip room_id sess.sid, some sv.2⟩ :: na.2,
        some sv.2⟩

/-- handle_unit_delete: delete the unit row, bump, mirror, broadcast
unit_deleted to the room excluding the sender. -/
def handle_unit_delete (sess : Session) (s : Store) (cache : Cache) (admins : Admins)
    (now : Nat) (unit_id : String) : HOut :=
  match sess.room_id with
  | none => ⟨s, cache, admins, [], none⟩
  | some room_id =>
    if sess.is_admin_room then
      ⟨s, cache, admins, [⟨"admin_error", EmitTarget.toSid sess.sid, none⟩], none⟩
    else
      let s1 := delete_unit s room_id unit_id
      let s2 := update_room_activity s1 room_id now
      let sv := increment_room_version s2 room_id
      let c1 := if (dictGet? cache room_id).isSome then cache
                else dictSet cache room_id emptyCacheRoom
      let c2 := dictModify c1 room_id (fun cr =>
        { cr with units := cr.units.filter (fun cu => !(cu.id == unit_id)),
                  last_activity := now })
      let na := notify_admin_rooms_of_room_update c2 admins room_id
      ⟨sv.1, c2, na.1,
        ⟨"unit_deleted", EmitTarget.toRoomSkip room_id sess.sid, some sv.2⟩ :: na.2,
        some sv.2⟩

/-- The cached unit dict obtained from a get_room_state unit entry when the
whole cache list is refreshed from a snapshot (the snapshot entries carry no
parent_unit_id key, so the cached parent is absent). -/
def cacheUnitOfView (v : UnitView) : CacheUnit :=
  { id := v.id, name := v.name, color := v.color, hex_key := v.hex_key,
    parent_unit_id := none, moved_by := v.moved_by, moved_at := v.moved_at }

/-- handle_replace_room_state: reject with room_error (to the sender alone)
when the session is in no room, the room row is absent, or the session is
neither the owner nor an authenticated admin; otherwise replace the whole
room state, bump, refresh the cache from the new snapshot, and emit
room_state_replaced to the whole room, sender included. -/
def handle_replace_room_state (sess : Session) (s : Store) (cache : Cache)
    (admins : Admins) (musers : List UserRow) (now : Nat)
    (hex_data : List (String × HexInfo)) (lines : List LinePayload)
    (units : List ReplUnit) : HOut :=
  match sess.room_id with
  | none => ⟨s, cache, admins, [⟨"room_error", EmitTarget.toSid sess.sid, none⟩], none⟩
  | some room_id =>
    match get_room s room_id with
    | none => ⟨s, cache, admins, [⟨"room_error", EmitTarget.toSid sess.sid, none⟩], none⟩
    | some room_meta =>
      let is_owner := ownerCheck room_meta.owner sess.username
      let is_admin := sess.is_authenticated && is_admin_user s.users musers sess.username
      if !(is_owner || is_admin) then
        ⟨s, cache, admins, [⟨"room_error", EmitTarget.toSid sess.sid, none⟩], none⟩
      else
        let s1 := replace_room_state s room_id hex_data lines units now (some sess.user_name)
        let s2 := update_room_activity s1 room_id now
        let sv := increment_room_version s2 room_id
        match get_room_state sv.1 room_id with
        | none => ⟨sv.1, cache, admins, [], some sv.2⟩
        | some st =>
          let c1 := if (dictGet? cache room_id).isSome then cache
                    else dictSet cache room_id emptyCacheRoom
          let c2 := dictModify c1 room_id (fun cr =>
            { cr with hex_data := st.hex_data, lines := st.lines,
                      units := st.units.map cacheUnitOfView,
                      last_activity := now })
          let na := notify_admin_rooms_of_room_update c2 admins room_id
          ⟨sv.1, c2, na.1,
            ⟨"room_state_replaced", EmitTarget.toRoom room_id, some sv.2⟩ :: na.2,
            some sv.2⟩

/-- handle_delete_room: reject with room_error when the session is in no
room, the room row is absent, or more than one active participant is in the
in-memory room entry; otherwise delete the room row, drop the cache entry
and confirm room_deleted to the sender.  No ownership condition appears
anywhere in this handler. -/
def handle_delete_room (sess : Session) (s : Store) (cache : Cache)
    (admins : Admins) : HOut :=
  match sess.room_id with
  | none => ⟨s, cache, admins, [⟨"room_error", EmitTarget.toSid sess.sid, none⟩], none⟩
  | some room_id =>
    match get_room s room_id with
    | none => ⟨s, cache, admins, [⟨"room_error", EmitTarget.toSid sess.sid, none⟩], none⟩
    | some _ =>
      let active_users := ((dictGet? cache room_id).map (fun cr => cr.users.length)).getD 0
      if active_users > 1 then
        ⟨s, cache, admins, [⟨"room_error", EmitTarget.toSid sess.sid, none⟩], none⟩
      else
        let s1 := delete_room s room_id
        let c1 := dictDel cache room_id
        ⟨s1, c1, admins, [⟨"room_deleted", EmitTarget.toSid sess.sid, none⟩], none⟩

/-! ## The mutation protocol as one dispatcher -/

/-- One inbound mutating client event with its payload. -/
inductive MutOp where
  | hexUpdate (hex_key fill_color : String)
  | hexErase (hex_key : String)
  | lineAdd (line : LinePayload)
  | unitAdd (fresh : String) (u : UnitInput)
  | unitUpdate (unit_id : String) (patch : UnitPatch)
  | unitReparent (unit_id : String) (parent_unit_id : Option String) (hex_key : Option String)
  | unitMove (unit_id new_hex_key : String)
  | unitDelete (unit_id : String)
  | replaceState (hex_data : List (String × HexInfo)) (lines : List LinePayload)
      (units : List ReplUnit)
deriving Repr, DecidableEq

/-- Dispatch one mutating event to its handler. -/
def runMut (sess : Session) (s : Store) (cache : Cache) (admins : Admins)
    (musers : List UserRow) (now : Nat) : MutOp → HOut
  | MutOp.hexUpdate k c => handle_hex_update sess s cache admins now k c
  | MutOp.hexErase k => handle_hex_erase sess s cache admins now k
  | MutOp.lineAdd line => handle_line_add sess s cache admins now line
  | MutOp.unitAdd fresh u => handle_unit_add sess s cache admins now fresh u
  | MutOp.unitUpdate uid patch => handle_unit_update sess s cache admins now uid patch
  | MutOp.unitReparent uid pid hk => handle_unit_reparent sess s cache admins now uid pid hk
  | MutOp.unitMove uid hk => handle_unit_move sess s cache admins now uid hk
  | MutOp.unitDelete uid => handle_unit_delete sess s cache admins now uid
  | MutOp.replaceState hd ls us => handle_replace_room_state sess s cache admins musers now hd ls us

/-- Run a sequence of mutating events from one session, collecting the
room_version value attached to each accepted broadcast (none marks an event
that was rejected before the persist step). -/
def runSeq (sess : Session) (musers : List UserRow) (now : Nat) :
    Store → Cache → Admins → List MutOp → Store × Cache × Admins × List (Option Nat)
  | s, cache, admins, [] => (s, cache, admins, [])
  | s, cache, admins, op :: ops =>
    let res := runMut sess s cache admins musers now op
    let rest := runSeq sess musers now res.store res.cache res.admins ops
    (rest.1, rest.2.1, rest.2.2.1, res.version :: rest.2.2.2)

/-- The name of the broadcast event of each accepted mutating operation. -/
def mutEventName : MutOp → String
  | MutOp.hexUpdate _ _ => "hex_updated"
  | MutOp.hexErase _ => "hex_erased"
  | MutOp.lineAdd _ => "line_added"
  | MutOp.unitAdd _ _ => "unit_added"
  | MutOp.unitUpdate _ _ => "unit_updated"
  | MutOp.unitReparent _ _ _ => "unit_updated"
  | MutOp.unitMove _ _ => "unit_moved"
  | MutOp.unitDelete _ => "unit_deleted"
  | MutOp.replaceState _ _ _ => "room_state_replaced"

/-- The operations whose broadcast goes to the whole room, the sender
included (written from the emit calls of main.py, to be compared with the
spec, which names unit creation as the only echo-back). -/
def echoesToSender : MutOp → Bool
  | MutOp.unitAdd _ _ => true
  | MutOp.unitUpdate _ _ => true
  | MutOp.unitReparent _ _ _ => true
  | MutOp.replaceState _ _ _ => true
  | _ => false

/-! ## Helper lemmas -/

/-- The version column of a room, as read through the primary-key lookup. -/
def roomVersion (s : Store) (r : String) : Option Nat :=
  (get_room s r).map (fun rm => rm.version)

theorem find?_map_invariant {α : Type} (f : α → α) (p : α → Bool)
    (l : List α) (h : ∀ a, p (f a) = p a) :
    (l.map f).find? p = (l.find? p).map f := by
  induction l with
  | nil => rfl
  | cons a as ih =>
    simp only [List.map_cons]
    by_cases hp : p a
    · rw [List.find?_cons_of_pos _ (by rw [h a]; exact hp), List.find?_cons_of_pos _ hp]
      rfl
    · rw [List.find?_cons_of_neg _ (by rw [h a]; simpa using hp),
          List.find?_cons_of_neg _ (by simpa using hp)]
      exact ih

theorem roomVersion_map_preserve (s : Store) (r : String) (f : RoomRow → RoomRow)
    (hid : ∀ rm, (f rm).room_id = rm.room_id)
    (hv : ∀ rm, (f rm).version = rm.version) :
    roomVersion { s with rooms := s.rooms.map f } r = roomVersion s r := by
  unfold roomVersion get_room
  simp only
  rw [find?_map_invariant f _ _ (fun rm => by rw [hid rm])]
  cases s.rooms.find? (fun rm => rm.room_id == r) with
  | none => rfl
  | some rm => simp [hv rm]

theorem roomVersion_congr (s1 s2 : Store) (r : String)
    (h : s1.rooms = s2.rooms) : roomVersion s1 r = roomVersion s2 r := by
  unfold roomVersion get_room
  rw [h]

theorem increment_room_version_spec (s : Store) (r : String) (v : Nat)
    (h : roomVersion s r = some v) :
    (increment_room_version s r).2 = v + 1 ∧
    roomVersion (increment_room_version s r).1 r = some (v + 1) := by
  set f : RoomRow → RoomRow :=
    fun rm => if rm.room_id == r then { rm with version := rm.version + 1 } else rm with hf
  have hid : ∀ rm : RoomRow, (f rm).room_id = rm.room_id := by
    intro rm
    simp only [hf]
    split <;> rfl
  have hinv : ∀ rm : RoomRow, ((f rm).room_id == r) = (rm.room_id == r) :=
    fun rm => by rw [hid rm]
  have hmap : (s.rooms.map f).find? (fun rm => rm.room_id == r)
      = (s.rooms.find? (fun rm => rm.room_id == r)).map f :=
    find?_map_invariant f _ _ hinv
  obtain ⟨rm0, hfind, hver⟩ :
      ∃ rm0, s.rooms.find? (fun rm => rm.room_id == r) = some rm0 ∧ rm0.version = v := by
    unfold roomVersion get_room at h
    cases hfd : s.rooms.find? (fun rm => rm.room_id == r) with
    | none => rw [hfd] at h; simp at h
    | some rm => rw [hfd] at h; simp at h; exact ⟨rm, rfl, h⟩
  have hp : rm0.room_id = r := by
    have hx := List.find?_some hfind
    simpa using hx
  have hfrm : f rm0 = { rm0 with version := rm0.version + 1 } := by
    simp [hf, hp]
  have hgoal : increment_room_version s r
      = ({ s with rooms := s.rooms.map f }, rm0.version + 1) := by
    unfold increment_room_version
    simp only [← hf]
    rw [hmap, hfind]
    simp [hfrm]
  rw [hgoal]
  refine ⟨by simp [hver], ?_⟩
  have hlook : roomVersion { s with rooms := s.rooms.map f } r = some (rm0.version + 1) := by
    unfold roomVersion get_room
    simp only
    rw [hmap, hfind]
    simp [hfrm]
  simpa [hver] using hlook

theorem update_hex_rooms (s : Store) (r k c : String) (now : Nat) (ub : Option String) :
    (update_hex s r k c now ub).rooms = s.rooms := by
  unfold update_hex
  split
  · rfl
  · split <;> rfl

theorem erase_hex_rooms (s : Store) (r k : String) :
    (erase_hex s r k).rooms = s.rooms := rfl

theorem delete_lines_by_hex_rooms (s : Store) (r k : String) :
    (delete_lines_by_hex s r k).rooms = s.rooms := rfl

theorem add_line_rooms (s : Store) (r lid : String) (p : LinePayload) (now : Nat)
    (cb : Option String) : (add_line s r lid p now cb).rooms = s.rooms := rfl

theorem add_unit_rooms (s : Store) (r uid : String) (u : UnitInput) (now : Nat)
    (cb : Option String) : (add_unit s r uid u now cb).rooms = s.rooms := rfl

theorem move_unit_rooms (s : Store) (r uid hk : String) (now : Nat)
    (mb : Option String) : (move_unit s r uid hk now mb).rooms = s.rooms := rfl

theorem delete_unit_rooms (s : Store) (r uid : String) :
    (delete_unit s r uid).rooms = s.rooms := rfl

theorem update_unit_rooms (s : Store) (r uid : String) (patch : UnitPatch)
    (ub : Option String) : (update_unit s r uid patch ub).rooms = s.rooms := rfl

theorem reparent_unit_rooms (s : Store) (r uid : String) (pid : Option String)
    (hk : Option String) (mb : Option String) :
    (reparent_unit s r uid pid hk mb).rooms = s.rooms := rfl

theorem replace_room_state_rooms (s : Store) (r : String)
    (hd : List (String × HexInfo)) (ls : List LinePayload) (us : List ReplUnit)
    (now : Nat) (ub : Option String) :
    (replace_room_state s r hd ls us now ub).rooms = s.rooms := rfl

theorem finalize_version (s s1 : Store) (r : String) (now v : Nat)
    (hpre : s1.rooms = s.rooms) (hv : roomVersion s r = some v) :
    (increment_room_version (update_room_activity s1 r now) r).2 = v + 1 ∧
    roomVersion (increment_room_version (update_room_activity s1 r now) r).1 r = some (v + 1) := by
  have h1 : roomVersion s1 r = some v := by
    rw [roomVersion_congr s1 s r hpre]; exact hv
  have h2 : roomVersion (update_room_activity s1 r now) r = some v := by
    have hx := roomVersion_map_preserve s1 r
      (fun rm => if rm.room_id == r then { rm with last_activity := now } else rm)
      (fun rm => by dsimp only; split <;> rfl)
      (fun rm => by dsimp only; split <;> rfl)
    unfold update_room_activity
    rw [hx]
    exact h1
  exact increment_room_version_spec _ _ _ h2

theorem runMut_version (sess : Session) (s : Store) (cache : Cache) (admins : Admins)
    (musers : List UserRow) (now : Nat) (op : MutOp) (r : String) (v : Nat)
    (hr : sess.room_id = some r) (hv : roomVersion s r = some v)
    (hacc : (runMut sess s cache admins musers now op).version.isSome) :
    (runMut sess s cache admins musers now op).version = some (v + 1) ∧
    roomVersion (runMut sess s cache admins musers now op).store r = some (v + 1) := by
  cases op with
  | hexUpdate k c =>
    simp only [runMut, handle_hex_update, hr] at hacc ⊢
    by_cases ha : sess.is_admin_room
    · simp [ha] at hacc
    · simp only [ha, Bool.false_eq_true, if_false] at hacc ⊢
      obtain ⟨e1, e2⟩ := finalize_version s _ r now v (update_hex_rooms s r k c now _) hv
      exact ⟨by rw [e1], e2⟩
  | hexErase k =>
    simp only [runMut, handle_hex_erase, hr] at hacc ⊢
    by_cases ha : sess.is_admin_room
    · simp [ha] at hacc
    · simp only [ha, Bool.false_eq_true, if_false] at hacc ⊢
      have hpre : (delete_lines_by_hex (erase_hex s r k) r k).rooms = s.rooms := by
        rw [delete_lines_by_hex_rooms, erase_hex_rooms]
      obtain ⟨e1, e2⟩ := finalize_version s _ r now v hpre hv
      cases hst : get_room_state
          (increment_room_version
            (update_room_activity (delete_lines_by_hex (erase_hex s r k) r k) r now) r).1 r with
      | none => exact ⟨congrArg some e1, e2⟩
      | some st => exact ⟨congrArg some e1, e2⟩
  | lineAdd line =>
    simp only [runMut, handle_line_add, hr] at hacc ⊢
    by_cases ha : sess.is_admin_room
    · simp [ha] at hacc
    · simp only [ha, Bool.false_eq_true, if_false] at hacc ⊢
      obtain ⟨e1, e2⟩ := finalize_version s _ r now v (add_line_rooms s r _ _ now _) hv
      exact ⟨by rw [e1], e2⟩
  | unitAdd fresh u =>
    simp only [runMut, handle_unit_add, hr] at hacc ⊢
    by_cases ha : sess.is_admin_room
    · simp [ha] at hacc
    · simp only [ha, Bool.false_eq_true, if_false] at hacc ⊢
      obtain ⟨e1, e2⟩ := finalize_version s _ r now v (add_unit_rooms s r _ u now _) hv
      exact ⟨by rw [e1], e2⟩
  | unitUpdate uid patch =>
    simp only [runMut, handle_unit_update, hr] at hacc ⊢
    by_cases ha : sess.is_admin_room
    · simp [ha] at hacc
    · simp only [ha, Bool.false_eq_true, if_false] at hacc ⊢
      by_cases huid : uid = ""
      · simp [huid] at hacc
      · simp only [huid, if_false] at hacc ⊢
        obtain ⟨e1, e2⟩ := finalize_version s _ r now v (update_unit_rooms s r uid patch _) hv
        cases hst : get_unit
            (increment_room_version
              (update_room_activity (update_unit s r uid patch (some sess.user_name)) r now) r).1
            r uid with
        | none => exact ⟨congrArg some e1, e2⟩
        | some w => exact ⟨congrArg some e1, e2⟩
  | unitReparent uid pid hk =>
    simp only [runMut, handle_unit_reparent, hr] at hacc ⊢
    by_cases ha : sess.is_admin_room
    · simp [ha] at hacc
    · simp only [ha, Bool.false_eq_true, if_false] at hacc ⊢
      by_cases huid : uid = ""
      · simp [huid] at hacc
      · simp only [huid, if_false] at hacc ⊢
        obtain ⟨e1, e2⟩ := finalize_version s _ r now v (reparent_unit_rooms s r uid pid hk _) hv
        cases hst : get_unit
            (increment_room_version
              (update_room_activity (reparent_unit s r uid pid hk (some sess.user_name)) r now) r).1
            r uid with
        | none => exact ⟨congrArg some e1, e2⟩
        | some w => exact ⟨congrArg some e1, e2⟩
  | unitMove uid hk =>
    simp only [runMut, handle_unit_move, hr] at hacc ⊢
    by_cases ha : sess.is_admin_room
    · simp [ha] at hacc
    · simp only [ha, Bool.false_eq_true, if_false] at hacc ⊢
      obtain ⟨e1, e2⟩ := finalize_version s _ r now v (move_unit_rooms s r uid hk now _) hv
      exact ⟨by rw [e1], e2⟩
  | unitDelete uid =>
    simp only [runMut, handle_unit_delete, hr] at hacc ⊢
    by_cases ha : sess.is_admin_room
    · simp [ha] at hacc
    · simp only [ha, Bool.false_eq_true, if_false] at hacc ⊢
      obtain ⟨e1, e2⟩ := finalize_version s _ r now v (delete_unit_rooms s r uid) hv
      exact ⟨by rw [e1], e2⟩
  | replaceState hd ls us =>
    simp only [runMut, handle_replace_room_state, hr] at hacc ⊢
    cases hg : get_room s r with
    | none => rw [roomVersion, hg] at hv; simp at hv
    | some meta =>
      rw [hg] at hacc
      simp only at hacc ⊢
      by_cases hperm : (!(ownerCheck meta.owner sess.username ||
          (sess.is_authenticated && is_admin_user s.users musers sess.username))) = true
      · rw [if_pos hperm] at hacc; simp at hacc
      · rw [if_neg hperm]
        obtain ⟨e1, e2⟩ := finalize_version s _ r now v
          (replace_room_state_rooms s r hd ls us now _) hv
        cases hst : get_room_state
            (increment_room_version
              (update_room_activity (replace_room_state s r hd ls us now (some sess.user_name)) r now)
              r).1 r with
        | none => exact ⟨congrArg some e1, e2⟩
        | some st => exact ⟨congrArg some e1, e2⟩

/-! ## Concrete sample data shared by the witnesses -/

def wUserAlice : UserRow := ⟨"alice", false⟩

def wUserRoot : UserRow := ⟨"root", true⟩

def wRoom1 : RoomRow := ⟨"R1", "Room One", some "alice", false, none, 0, 0, 1⟩

def wStore0 : Store := ⟨[wRoom1], [], [], [], [wUserAlice, wUserRoot]⟩

def wSessOwner : Session := ⟨"s1", some "R1", "alice", some "alice", true, false⟩

def wSessAnon : Session := ⟨"s2", some "R1", "bob", none, false, false⟩

def wOps : List MutOp := [MutOp.hexUpdate "1,1" "red", MutOp.hexErase "1,1"]

/-! ## C1: the version counter over sequences of accepted mutations -/

/-- C1: for every room and every sequence of accepted mutating operations on
it (hex_update, hex_erase, line_add, unit_add/update/move/reparent/delete,
replace_room_state), the room version counter increases by exactly one per
accepted mutation, is never decremented and never skips a value, and
increment_room_version returns the new value: the broadcast versions are
exactly v0+1, v0+2, ..., v0+n and the stored version ends at v0+n. -/
theorem C1_version_strictly_sequential (sess : Session) (s : Store) (cache : Cache)
    (admins : Admins) (musers : List UserRow) (now : Nat) (ops : List MutOp)
    (r : String) (v0 : Nat) (hr : sess.room_id = some r)
    (hv : roomVersion s r = some v0)
    (hacc : ∀ w ∈ (runSeq sess musers now s cache admins ops).2.2.2, w.isSome) :
    (runSeq sess musers now s cache admins ops).2.2.2
        = (List.range ops.length).map (fun i => some (v0 + i + 1)) ∧
    roomVersion (runSeq sess musers now s cache admins ops).1 r = some (v0 + ops.length) := by
  induction ops generalizing s cache admins v0 with
  | nil => simpa [runSeq] using hv
  | cons op ops ih =>
    simp only [runSeq] at hacc ⊢
    have hacc0 : (runMut sess s cache admins musers now op).version.isSome :=
      hacc _ (List.mem_cons_self _ _)
    obtain ⟨hv1, hv2⟩ := runMut_version sess s cache admins musers now op r v0 hr hv hacc0
    have haccrest : ∀ w ∈ (runSeq sess musers now
        (runMut sess s cache admins musers now op).store
        (runMut sess s cache admins musers now op).cache
        (runMut sess s cache admins musers now op).admins ops).2.2.2, w.isSome :=
      fun w hw => hacc w (List.mem_cons_of_mem _ hw)
    obtain ⟨e1, e2⟩ := ih (runMut sess s cache admins musers now op).store
      (runMut sess s cache admins musers now op).cache
      (runMut sess s cache admins musers now op).admins (v0 + 1) hv2 haccrest
    refine ⟨?_, ?_⟩
    · rw [List.length_cons, List.range_succ_eq_map, List.map_cons, List.map_map]
      have hfun : ((fun i => some (v0 + i + 1)) ∘ Nat.succ) = fun i => some ((v0 + 1) + i + 1) := by
        funext i
        simp only [Function.comp]
        congr 1
        omega
      rw [hfun, ← e1, hv1]
    · rw [e2]
      simp only [List.length_cons]
      congr 1
      omega

/-- C1 witness: a concrete owner session running two accepted mutations on a
room at version 1 broadcasts versions 2 and 3 and leaves the stored version
at 3. -/
theorem C1_version_strictly_sequential_witness :
    wSessOwner.room_id = some "R1" ∧
    roomVersion wStore0 "R1" = some 1 ∧
    (∀ w ∈ (runSeq wSessOwner [wUserAlice] 5 wStore0 [] [] wOps).2.2.2, w.isSome) ∧
    ((runSeq wSessOwner [wUserAlice] 5 wStore0 [] [] wOps).2.2.2
        = (List.range wOps.length).map (fun i => some (1 + i + 1)) ∧
      roomVersion (runSeq wSessOwner [wUserAlice] 5 wStore0 [] [] wOps).1 "R1"
        = some (1 + wOps.length)) :=
  ⟨by decide, by decide, by decide,
    C1_version_strictly_sequential wSessOwner wStore0 [] [] [wUserAlice] 5 wOps "R1" 1
      (by decide) (by decide) (by decide)⟩

/-! ## C2: sparse-storage round trip -/

theorem get_room_congr (s1 s2 : Store) (r : String) (h : s1.rooms = s2.rooms) :
    get_room s1 r = get_room s2 r := by
  unfold get_room
  rw [h]

/-- The stored color of one cell: the first (unique, by the primary key)
hex row of the room at that key. -/
def hexColor (s : Store) (r k : String) : Option String :=
  (s.hexes.find? (hexMatches r k)).map (fun h => h.fill_color)

/-- Looking a key up in the hex_data dict of a room snapshot is the same as
reading the first matching row of the hexes table. -/
theorem dictGet?_hexlist (hs : List HexRow) (r k : String) :
    dictGet? ((hs.filter (fun h => h.room_id == r)).map
        (fun h => (h.hex_key, h.fill_color))) k
      = (hs.find? (hexMatches r k)).map (fun h => h.fill_color) := by
  induction hs with
  | nil => rfl
  | cons h t ih =>
    by_cases hroom : (h.room_id == r) = true
    · by_cases hkey : (h.hex_key == k) = true
      · have hm : hexMatches r k h = true := by
          unfold hexMatches
          rw [hroom, hkey]
          rfl
        rw [List.find?_cons_of_pos _ hm]
        simp [dictGet?, List.filter_cons, hroom, hkey]
      · have hk2 : (h.hex_key == k) = false := by simpa using hkey
        have hm : hexMatches r k h = false := by
          unfold hexMatches
          rw [hk2, Bool.and_false]
        rw [List.find?_cons_of_neg _ (by rw [hm]; simp)]
        simpa [dictGet?, List.filter_cons, hroom, hk2] using ih
    · have hr2 : (h.room_id == r) = false := by simpa using hroom
      have hm : hexMatches r k h = false := by
        unfold hexMatches
        rw [hr2, Bool.false_and]
      rw [List.find?_cons_of_neg _ (by rw [hm]; simp)]
      simpa [List.filter_cons, hr2] using ih

/-- After deleting the (r, k) row, no (r, k) row is found. -/
theorem find?_after_delete (hs : List HexRow) (r k : String) :
    (hs.filter (fun h => !(hexMatches r k h))).find? (hexMatches r k) = none := by
  rw [List.find?_eq_none]
  intro x hx
  have hmem := List.mem_filter.mp hx
  simp only [Bool.not_eq_eq_eq_not, Bool.not_true] at hmem
  rw [hmem.2]
  simp

/-- C2: for every room and cell key, setting the cell color to the default
through update_hex and reading the room state yields no entry for the cell,
and setting it to any non-default color and reading yields exactly that
color. -/
theorem C2_sparse_roundtrip (s : Store) (r k c : String) (now : Nat) (ub : Option String)
    (hroom : (get_room s r).isSome) (hc : c ≠ defaultColor) :
    ((get_room_state (update_hex s r k defaultColor now ub) r).map
        (fun st => dictGet? st.hex_data k)) = some none ∧
    ((get_room_state (update_hex s r k c now ub) r).map
        (fun st => dictGet? st.hex_data k)) = some (some c) := by
  obtain ⟨meta, hm⟩ := Option.isSome_iff_exists.mp hroom
  constructor
  · have hd : get_room (update_hex s r k defaultColor now ub) r = get_room s r :=
      get_room_congr _ s r (update_hex_rooms s r k defaultColor now ub)
    unfold get_room_state
    rw [hd, hm]
    simp only [Option.map_some']
    congr 1
    rw [dictGet?_hexlist]
    have hhexes : (update_hex s r k defaultColor now ub).hexes
        = s.hexes.filter (fun h => !(hexMatches r k h)) := by
      unfold update_hex
      rw [if_pos rfl]
    rw [hhexes, find?_after_delete]
    rfl
  · have hd : get_room (update_hex s r k c now ub) r = get_room s r :=
      get_room_congr _ s r (update_hex_rooms s r k c now ub)
    unfold get_room_state
    rw [hd, hm]
    simp only [Option.map_some']
    congr 1
    rw [dictGet?_hexlist]
    unfold update_hex
    rw [if_neg hc]
    by_cases hany : s.hexes.any (hexMatches r k) = true
    · rw [if_pos hany]
      simp only
      set f : HexRow → HexRow := fun h =>
        if hexMatches r k h then { h with fill_color := c, updated_at := now, updated_by := ub }
        else h with hf
      have hinv : ∀ h, hexMatches r k (f h) = hexMatches r k h := by
        intro h
        simp only [hf]
        split
        · unfold hexMatches at *
          simp_all
        · rfl
      rw [find?_map_invariant f _ _ hinv]
      obtain ⟨h0, hmem, hp⟩ := List.any_eq_true.mp hany
      obtain ⟨h1, hfind⟩ : ∃ h1, s.hexes.find? (hexMatches r k) = some h1 := by
        cases hfd : s.hexes.find? (hexMatches r k) with
        | none => rw [List.find?_eq_none] at hfd; exact absurd hp (by simpa using hfd h0 hmem)
        | some h1 => exact ⟨h1, rfl⟩
      rw [hfind]
      have hp1 : hexMatches r k h1 = true := List.find?_some hfind
      simp only [Option.map_some']
      congr 1
      simp [hf, hp1]
    · rw [if_neg hany]
      simp only
      have hnone : s.hexes.find? (hexMatches r k) = none := by
        rw [List.find?_eq_none]
        intro x hx hpx
        exact hany (List.any_eq_true.mpr ⟨x, hx, hpx⟩)
      have happ : (s.hexes ++
          [{ room_id := r, hex_key := k, fill_color := c,
             updated_at := now, updated_by := ub : HexRow }]).find? (hexMatches r k)
          = some { room_id := r, hex_key := k, fill_color := c,
                   updated_at := now, updated_by := ub } := by
        rw [List.find?_append, hnone, Option.none_or]
        simp [hexMatches]
      rw [happ]
      rfl

/-- C2 witness at a concrete store, cell and color. -/
theorem C2_sparse_roundtrip_witness :
    (get_room wStore0 "R1").isSome ∧ "red" ≠ defaultColor ∧
    (((get_room_state (update_hex wStore0 "R1" "3,2" defaultColor 7 (some "alice")) "R1").map
        (fun st => dictGet? st.hex_data "3,2")) = some none ∧
      ((get_room_state (update_hex wStore0 "R1" "3,2" "red" 7 (some "alice")) "R1").map
        (fun st => dictGet? st.hex_data "3,2")) = some (some "red")) :=
  ⟨by decide, by decide,
    C2_sparse_roundtrip wStore0 "R1" "3,2" "red" 7 (some "alice") (by decide) (by decide)⟩

/-! ## C3: erase cascades to lines, never to units -/

theorem pipeline_tables (s : Store) (r : String) (now : Nat) :
    (increment_room_version (update_room_activity s r now) r).1.hexes = s.hexes ∧
    (increment_room_version (update_room_activity s r now) r).1.lines = s.lines ∧
    (increment_room_version (update_room_activity s r now) r).1.units = s.units := by
  unfold increment_room_version update_room_activity
  refine ⟨?_, ?_, ?_⟩ <;> (simp only; split <;> rfl)

theorem hexMatches_eq_false_iff (r k : String) (h : HexRow) :
    hexMatches r k h = false ↔ ¬(h.room_id = r ∧ h.hex_key = k) := by
  unfold hexMatches
  cases hr2 : h.room_id == r <;> cases hk2 : h.hex_key == k <;> simp_all

/-- The store written by an accepted hex_erase is the pipeline store. -/
theorem handle_hex_erase_store (sess : Session) (s : Store) (cache : Cache)
    (admins : Admins) (now : Nat) (k r : String)
    (hr : sess.room_id = some r) (ha : sess.is_admin_room = false) :
    (handle_hex_erase sess s cache admins now k).store =
      (increment_room_version
        (update_room_activity (delete_lines_by_hex (erase_hex s r k) r k) r now) r).1 := by
  unfold handle_hex_erase
  rw [hr]
  simp only [ha, Bool.false_eq_true, if_false]
  cases get_room_state
      (increment_room_version
        (update_room_activity (delete_lines_by_hex (erase_hex s r k) r k) r now) r).1 r <;> rfl

/-- C3: for every room and cell key, hex_erase deletes the hex row for the
cell and every line of the room whose start or end endpoint references the
cell key, while the set of unit rows is left completely unchanged. -/
theorem C3_erase_cascades_lines_not_units (sess : Session) (s : Store) (cache : Cache)
    (admins : Admins) (now : Nat) (k r : String)
    (hr : sess.room_id = some r) (ha : sess.is_admin_room = false)
    (hnd : (s.lines.map (fun l => l.line_id)).Nodup) :
    (handle_hex_erase sess s cache admins now k).store.units = s.units ∧
    (∀ h : HexRow, h ∈ (handle_hex_erase sess s cache admins now k).store.hexes ↔
      (h ∈ s.hexes ∧ ¬(h.room_id = r ∧ h.hex_key = k))) ∧
    (∀ l : LineRow, l ∈ (handle_hex_erase sess s cache admins now k).store.lines ↔
      (l ∈ s.lines ∧ ¬(l.room_id = r ∧ lineTouches k l.payload = true))) := by
  rw [handle_hex_erase_store sess s cache admins now k r hr ha]
  obtain ⟨eh, el, eu⟩ := pipeline_tables (delete_lines_by_hex (erase_hex s r k) r k) r now
  rw [eh, el, eu]
  refine ⟨rfl, ?_, ?_⟩
  · intro h
    show h ∈ (erase_hex s r k).hexes ↔ _
    unfold erase_hex
    simp only [List.mem_filter]
    constructor
    · rintro ⟨hmem, hflt⟩
      refine ⟨hmem, ?_⟩
      have : hexMatches r k h = false := by
        cases hx : hexMatches r k h
        · rfl
        · rw [hx] at hflt; simp at hflt
      exact (hexMatches_eq_false_iff r k h).mp this
    · rintro ⟨hmem, hnot⟩
      refine ⟨hmem, ?_⟩
      rw [(hexMatches_eq_false_iff r k h).mpr hnot]
      rfl
  · intro l
    unfold delete_lines_by_hex
    have helines : (erase_hex s r k).lines = s.lines := rfl
    simp only [helines, List.mem_filter]
    set ids := (s.lines.filter
        (fun x => x.room_id == r && lineTouches k x.payload)).map (fun x => x.line_id) with hids
    have hkey : ∀ hmem : l ∈ s.lines,
        (l.line_id ∈ ids ↔ (l.room_id = r ∧ lineTouches k l.payload = true)) := by
      intro hmem
      constructor
      · intro hin
        obtain ⟨l2, hl2, hl2id⟩ := List.mem_map.mp (by rw [hids] at hin; exact hin)
        obtain ⟨hl2mem, hl2q⟩ := List.mem_filter.mp hl2
        have hl2l : l2 = l := List.inj_on_of_nodup_map hnd hl2mem hmem hl2id
        subst hl2l
        have hq := (Bool.and_eq_true _ _).mp hl2q
        exact ⟨by simpa using hq.1, hq.2⟩
      · rintro ⟨hlr, hlt⟩
        rw [hids]
        exact List.mem_map_of_mem _ (List.mem_filter.mpr ⟨hmem, by rw [hlr, hlt]; simp⟩)
    constructor
    · rintro ⟨hmem, hflt⟩
      refine ⟨hmem, fun hcontra => ?_⟩
      have hin : l.line_id ∈ ids := (hkey hmem).mpr hcontra
      have hct : ids.contains l.line_id = true := by simpa using hin
      rw [hct] at hflt
      simp at hflt
    · rintro ⟨hmem, hnot⟩
      refine ⟨hmem, ?_⟩
      have hniin : l.line_id ∉ ids := fun hin => hnot ((hkey hmem).mp hin)
      have hcf : ids.contains l.line_id = false := by
        cases hc : ids.contains l.line_id
        · rfl
        · exact absurd (by simpa using hc) hniin
      rw [hcf]
      rfl

def wLineTouch : LineRow := ⟨"R1", "L1", ⟨some "L1", some "2,2", some "4,4"⟩, 0, some "alice"⟩

def wLineOther : LineRow := ⟨"R1", "L2", ⟨some "L2", some "5,5", some "6,6"⟩, 0, some "alice"⟩

def wUnitOn22 : UnitRow :=
  ⟨"R1", "u1", "Mech", "blue", "2,2", 0, some "alice", none, none, none, none, none, none⟩

def wStore3 : Store :=
  ⟨[wRoom1], [⟨"R1", "2,2", "red", 0, none⟩], [wLineTouch, wLineOther], [wUnitOn22],
   [wUserAlice, wUserRoot]⟩

/-- C3 witness: a concrete room with one colored cell, one line touching it,
one line elsewhere and a unit anchored on the erased cell. -/
theorem C3_erase_cascades_lines_not_units_witness :
    wSessAnon.room_id = some "R1" ∧ wSessAnon.is_admin_room = false ∧
    (wStore3.lines.map (fun l => l.line_id)).Nodup ∧
    ((handle_hex_erase wSessAnon wStore3 [] [] 9 "2,2").store.units = wStore3.units ∧
      (∀ h : HexRow, h ∈ (handle_hex_erase wSessAnon wStore3 [] [] 9 "2,2").store.hexes ↔
        (h ∈ wStore3.hexes ∧ ¬(h.room_id = "R1" ∧ h.hex_key = "2,2"))) ∧
      (∀ l : LineRow, l ∈ (handle_hex_erase wSessAnon wStore3 [] [] 9 "2,2").store.lines ↔
        (l ∈ wStore3.lines ∧ ¬(l.room_id = "R1" ∧ lineTouches "2,2" l.payload = true)))) :=
  ⟨by decide, by decide, by decide,
    C3_erase_cascades_lines_not_units wSessAnon wStore3 [] [] 9 "2,2" "R1"
      (by decide) (by decide) (by decide)⟩

/-! ## C4: the one-level move cascade -/

/-- The anchoring cell of a unit as observed in the persisted room state. -/
def viewUnitHex (s : Store) (r uid : String) : Option String :=
  (get_room_state s r).bind
    (fun st => (st.units.find? (fun u => u.id == uid)).map (fun u => u.hex_key))

def wUnitParent : UnitRow :=
  ⟨"R1", "p", "Parent", "red", "1,1", 0, some "alice", none, none, none, none, none, none⟩

def wUnitChild : UnitRow :=
  ⟨"R1", "c", "Child", "blue", "1,1", 0, some "alice", none, none, none, none, none, some "p"⟩

def wStore4 : Store :=
  ⟨[wRoom1], [], [], [wUnitParent, wUnitChild], [wUserAlice, wUserRoot]⟩

def wCache4 : Cache :=
  [("R1", { name := "Room One", hex_data := [], lines := [],
            units := [⟨"p", "Parent", "red", "1,1", none, none, none⟩,
                      ⟨"c", "Child", "blue", "1,1", some "p", none, none⟩],
            users := ["s2"], last_activity := 0 })]

/-- C4 counterexample: a unit move of the parent p to cell 2,2 leaves the
child c, whose parent_unit_id is p, at cell 1,1 in the persisted room state
read back through get_room_state, so the cascade is not observable in the
persisted state. -/
theorem C4_counterexample_persisted_cascade :
    viewUnitHex (handle_unit_move wSessAnon wStore4 wCache4 [] 9 "p" "2,2").store "R1" "p"
        = some "2,2" ∧
    viewUnitHex (handle_unit_move wSessAnon wStore4 wCache4 [] 9 "p" "2,2").store "R1" "c"
        = some "1,1" ∧
    (some "1,1" : Option String) ≠ some "2,2" ∧
    (wStore4.units.find? (fun u => u.unit_id == "c")).map (fun u => u.parent_unit_id)
        = some (some "p") := by
  refine ⟨by decide, by decide, by decide, by decide⟩

theorem dictGet?_cons_pos {α : Type} (a : String) (b : α) (t : List (String × α)) (k : String)
    (hc : (a == k) = true) : dictGet? ((a, b) :: t) k = some b := by
  unfold dictGet?
  rw [List.find?_cons_of_pos]
  · rfl
  · exact hc

theorem dictGet?_cons_neg {α : Type} (a : String) (b : α) (t : List (String × α)) (k : String)
    (hc : (a == k) = false) : dictGet? ((a, b) :: t) k = dictGet? t k := by
  unfold dictGet?
  rw [List.find?_cons_of_neg]
  simp [hc]

theorem dictGet?_modify_self {α : Type} (d : List (String × α)) (k : String) (f : α → α) :
    dictGet? (dictModify d k f) k = (dictGet? d k).map f := by
  induction d with
  | nil => rfl
  | cons p t ih =>
    obtain ⟨a, b⟩ := p
    have h1 : dictModify ((a, b) :: t) k f
        = (if (a == k) = true then (a, f b) else (a, b)) :: dictModify t k f := by
      simp only [dictModify, List.map_cons]
    rw [h1]
    by_cases hc : (a == k) = true
    · rw [if_pos hc, dictGet?_cons_pos _ _ _ _ hc, dictGet?_cons_pos _ _ _ _ hc]
      rfl
    · have hcf : (a == k) = false := by simpa using hc
      rw [if_neg hc, dictGet?_cons_neg _ _ _ _ hcf, dictGet?_cons_neg _ _ _ _ hcf]
      exact ih

theorem cascade_moves_children (l : List CacheUnit) (uid k un : String) (now : Nat) :
    ∀ cu ∈ l.map (fun cu => if cu.parent_unit_id == some uid then
        { cu with hex_key := k, moved_by := some un, moved_at := some now } else cu),
      cu.parent_unit_id = some uid → cu.hex_key = k := by
  intro cu hcu hp
  obtain ⟨x, hx, hfx⟩ := List.mem_map.mp hcu
  by_cases hc : (x.parent_unit_id == some uid) = true
  · rw [if_pos hc] at hfx
    rw [← hfx]
  · rw [if_neg hc] at hfx
    subst hfx
    exact absurd (beq_iff_eq.mpr hp) hc

theorem handle_unit_move_store (sess : Session) (s : Store) (cache : Cache)
    (admins : Admins) (now : Nat) (uid k r : String)
    (hr : sess.room_id = some r) (ha : sess.is_admin_room = false) :
    (handle_unit_move sess s cache admins now uid k).store =
      (increment_room_version
        (update_room_activity (move_unit s r uid k now (some sess.user_name)) r now) r).1 := by
  unfold handle_unit_move
  rw [hr]
  simp only [ha, Bool.false_eq_true, if_false]

/-- The in-place cache mutation of handle_unit_move: move the first cached
unit carrying the id, then move every cached unit whose parent is that id. -/
def moveCacheFn (uid k un : String) (now : Nat) (cr : CacheRoom) : CacheRoom :=
  let moved := updateFirst (fun cu => cu.id == uid)
    (fun cu => { cu with hex_key := k, moved_by := some un, moved_at := some now }) cr.units
  let casc := moved.map (fun cu => if cu.parent_unit_id == some uid then
    { cu with hex_key := k, moved_by := some un, moved_at := some now } else cu)
  { cr with units := casc, last_activity := now }

theorem handle_unit_move_cache (sess : Session) (s : Store) (cache : Cache)
    (admins : Admins) (now : Nat) (uid k r : String)
    (hr : sess.room_id = some r) (ha : sess.is_admin_room = false) :
    (handle_unit_move sess s cache admins now uid k).cache =
      dictModify (if (dictGet? cache r).isSome then cache else dictSet cache r emptyCacheRoom) r
        (moveCacheFn uid k sess.user_name now) := by
  unfold handle_unit_move moveCacheFn
  rw [hr]
  simp only [ha, Bool.false_eq_true, if_false]

/-- C4 as amended: unit_move persists the move of the addressed unit only
(every unit row that is not the addressed one, in particular every child
row, is carried to the new store unchanged, and the addressed row moves to
the destination), while the one-level cascade to the units whose
parent_unit_id is the moved id takes place in the in-memory room cache
alone. -/
theorem C4_move_cascade_cache_only (sess : Session) (s : Store) (cache : Cache)
    (admins : Admins) (now : Nat) (uid k r : String)
    (hr : sess.room_id = some r) (ha : sess.is_admin_room = false) :
    (∀ w ∈ s.units, ¬(w.room_id = r ∧ w.unit_id = uid) →
      w ∈ (handle_unit_move sess s cache admins now uid k).store.units) ∧
    (∀ w ∈ s.units, w.room_id = r → w.unit_id = uid →
      ({ w with hex_key := k, moved_at := some now,
                moved_by := some sess.user_name } : UnitRow)
        ∈ (handle_unit_move sess s cache admins now uid k).store.units) ∧
    (∀ cr', dictGet? (handle_unit_move sess s cache admins now uid k).cache r = some cr' →
      ∀ cu ∈ cr'.units, cu.parent_unit_id = some uid → cu.hex_key = k) := by
  have hstore := handle_unit_move_store sess s cache admins now uid k r hr ha
  have hunits : (handle_unit_move sess s cache admins now uid k).store.units
      = (move_unit s r uid k now (some sess.user_name)).units := by
    rw [hstore]
    exact (pipeline_tables (move_unit s r uid k now (some sess.user_name)) r now).2.2
  refine ⟨?_, ?_, ?_⟩
  · intro w hw hnot
    rw [hunits]
    unfold move_unit
    simp only
    have hm : unitMatches r uid w = false := by
      unfold unitMatches
      cases hr2 : w.room_id == r <;> cases hu2 : w.unit_id == uid <;> simp_all
    have hfw : (fun u => if unitMatches r uid u then
        { u with hex_key := k, moved_at := some now, moved_by := some sess.user_name }
        else u) w = w := by simp [hm]
    rw [← hfw]
    exact List.mem_map_of_mem _ hw
  · intro w hw h1 h2
    rw [hunits]
    unfold move_unit
    simp only
    have hm : unitMatches r uid w = true := by
      unfold unitMatches
      rw [h1, h2]
      simp
    have hfw : (fun u => if unitMatches r uid u then
        { u with hex_key := k, moved_at := some now, moved_by := some sess.user_name }
        else u) w = { w with hex_key := k, moved_at := some now,
                             moved_by := some sess.user_name } := by simp [hm]
    rw [← hfw]
    exact List.mem_map_of_mem _ hw
  · intro cr' hcr' cu hcu hp
    rw [handle_unit_move_cache sess s cache admins now uid k r hr ha,
        dictGet?_modify_self] at hcr'
    cases hc1 : dictGet?
        (if (dictGet? cache r).isSome then cache else dictSet cache r emptyCacheRoom) r with
    | none => rw [hc1] at hcr'; simp at hcr'
    | some cr =>
      rw [hc1] at hcr'
      simp only [Option.map_some'] at hcr'
      have hcr2 : moveCacheFn uid k sess.user_name now cr = cr' := Option.some.inj hcr'
      subst hcr2
      exact cascade_moves_children _ uid k sess.user_name now cu hcu hp

/-- C4 witness: the amended statement applied to the concrete two-unit
store and cache of the counterexample. -/
theorem C4_move_cascade_cache_only_witness :
    wSessAnon.room_id = some "R1" ∧ wSessAnon.is_admin_room = false ∧
    ((∀ w ∈ wStore4.units, ¬(w.room_id = "R1" ∧ w.unit_id = "p") →
        w ∈ (handle_unit_move wSessAnon wStore4 wCache4 [] 9 "p" "2,2").store.units) ∧
      (∀ w ∈ wStore4.units, w.room_id = "R1" → w.unit_id = "p" →
        ({ w with hex_key := "2,2", moved_at := some 9,
                  moved_by := some wSessAnon.user_name } : UnitRow)
          ∈ (handle_unit_move wSessAnon wStore4 wCache4 [] 9 "p" "2,2").store.units) ∧
      (∀ cr', dictGet? (handle_unit_move wSessAnon wStore4 wCache4 [] 9 "p" "2,2").cache "R1"
            = some cr' →
        ∀ cu ∈ cr'.units, cu.parent_unit_id = some "p" → cu.hex_key = "2,2")) :=
  ⟨by decide, by decide,
    C4_move_cascade_cache_only wSessAnon wStore4 wCache4 [] 9 "p" "2,2" "R1"
      (by decide) (by decide)⟩

/-! ## C9: plain color-set never cascades -/

theorem update_hex_lines (s : Store) (r k c : String) (now : Nat) (ub : Option String) :
    (update_hex s r k c now ub).lines = s.lines := by
  unfold update_hex
  split
  · rfl
  · split <;> rfl

theorem update_hex_units (s : Store) (r k c : String) (now : Nat) (ub : Option String) :
    (update_hex s r k c now ub).units = s.units := by
  unfold update_hex
  split
  · rfl
  · split <;> rfl

theorem handle_hex_update_store (sess : Session) (s : Store) (cache : Cache)
    (admins : Admins) (now : Nat) (k c r : String)
    (hr : sess.room_id = some r) (ha : sess.is_admin_room = false) :
    (handle_hex_update sess s cache admins now k c).store =
      (increment_room_version
        (update_room_activity (update_hex s r k c now (some sess.user_name)) r now) r).1 := by
  unfold handle_hex_update
  rw [hr]
  simp only [ha, Bool.false_eq_true, if_false]

/-- The stored color of the written cell after update_hex: gone when the
default color was written, exactly the written color otherwise. -/
theorem update_hex_hexColor (s : Store) (r k c : String) (now : Nat) (ub : Option String) :
    hexColor (update_hex s r k c now ub) r k
      = (if c = defaultColor then none else some c) := by
  by_cases hdef : c = defaultColor
  · rw [if_pos hdef]
    unfold hexColor update_hex
    rw [if_pos hdef]
    simp only
    rw [find?_after_delete]
    rfl
  · rw [if_neg hdef]
    unfold hexColor update_hex
    rw [if_neg hdef]
    by_cases hany : s.hexes.any (hexMatches r k) = true
    · rw [if_pos hany]
      simp only
      set f : HexRow → HexRow := fun h =>
        if hexMatches r k h then { h with fill_color := c, updated_at := now, updated_by := ub }
        else h with hf
      have hinv : ∀ h, hexMatches r k (f h) = hexMatches r k h := by
        intro h
        simp only [hf]
        split
        · unfold hexMatches at *
          simp_all
        · rfl
      rw [find?_map_invariant f _ _ hinv]
      obtain ⟨h0, hmem, hp⟩ := List.any_eq_true.mp hany
      obtain ⟨h1, hfind⟩ : ∃ h1, s.hexes.find? (hexMatches r k) = some h1 := by
        cases hfd : s.hexes.find? (hexMatches r k) with
        | none => rw [List.find?_eq_none] at hfd; exact absurd hp (by simpa using hfd h0 hmem)
        | some h1 => exact ⟨h1, rfl⟩
      rw [hfind]
      have hp1 : hexMatches r k h1 = true := List.find?_some hfind
      simp only [Option.map_some']
      congr 1
      simp [hf, hp1]
    · rw [if_neg hany]
      simp only
      have hnone : s.hexes.find? (hexMatches r k) = none := by
        rw [List.find?_eq_none]
        intro x hx hpx
        exact hany (List.any_eq_true.mpr ⟨x, hx, hpx⟩)
      rw [List.find?_append, hnone, Option.none_or]
      simp [hexMatches]

/-- C9: an accepted hex_update leaves every line and every unit row exactly
as it was, touches no hex row of any other cell in either direction, and
leaves the written cell deleted when the color is the default and at
exactly the written color otherwise. -/
theorem C9_color_set_never_cascades (sess : Session) (s : Store) (cache : Cache)
    (admins : Admins) (now : Nat) (k c r : String)
    (hr : sess.room_id = some r) (ha : sess.is_admin_room = false) :
    (handle_hex_update sess s cache admins now k c).store.lines = s.lines ∧
    (handle_hex_update sess s cache admins now k c).store.units = s.units ∧
    (∀ h ∈ s.hexes, ¬(h.room_id = r ∧ h.hex_key = k) →
      h ∈ (handle_hex_update sess s cache admins now k c).store.hexes) ∧
    (∀ h ∈ (handle_hex_update sess s cache admins now k c).store.hexes,
      ¬(h.room_id = r ∧ h.hex_key = k) → h ∈ s.hexes) ∧
    hexColor (handle_hex_update sess s cache admins now k c).store r k
      = (if c = defaultColor then none else some c) := by
  have hstore := handle_hex_update_store sess s cache admins now k c r hr ha
  obtain ⟨eh, el, eu⟩ :=
    pipeline_tables (update_hex s r k c now (some sess.user_name)) r now
  have hhx : (handle_hex_update sess s cache admins now k c).store.hexes
      = (update_hex s r k c now (some sess.user_name)).hexes := by rw [hstore, eh]
  refine ⟨?_, ?_, ?_, ?_, ?_⟩
  · rw [hstore, el, update_hex_lines]
  · rw [hstore, eu, update_hex_units]
  · intro h hmem hnot
    rw [hhx]
    have hm : hexMatches r k h = false := (hexMatches_eq_false_iff r k h).mpr hnot
    unfold update_hex
    split
    · exact List.mem_filter.mpr ⟨hmem, by rw [hm]; rfl⟩
    · split
      · simp only
        have hfh : (fun x => if hexMatches r k x then
            { x with fill_color := c, updated_at := now, updated_by := some sess.user_name }
            else x) h = h := by simp [hm]
        rw [← hfh]
        exact List.mem_map_of_mem _ hmem
      · exact List.mem_append_left _ hmem
  · intro h hmem hnot
    rw [hhx] at hmem
    have hm : hexMatches r k h = false := (hexMatches_eq_false_iff r k h).mpr hnot
    unfold update_hex at hmem
    split at hmem
    · exact (List.mem_filter.mp hmem).1
    · split at hmem
      · simp only at hmem
        obtain ⟨x, hx, hfx⟩ := List.mem_map.mp hmem
        by_cases hmx : hexMatches r k x = true
        · exfalso
          rw [if_pos hmx] at hfx
          have : hexMatches r k h = true := by
            rw [← hfx]
            unfold hexMatches at hmx ⊢
            simp_all
          rw [this] at hm
          exact Bool.true_eq_false.mp hm
        · rw [if_neg hmx] at hfx
          rw [← hfx]
          exact hx
      · rcases List.mem_append.mp hmem with hin | hin
        · exact hin
        · exfalso
          have : h = { room_id := r, hex_key := k, fill_color := c,
                       updated_at := now, updated_by := some sess.user_name } := by
            simpa using hin
          rw [this] at hm
          unfold hexMatches at hm
          simp at hm
  · rw [hstore]
    unfold hexColor
    rw [eh]
    exact update_hex_hexColor s r k c now (some sess.user_name)

/-- C9 witness at a concrete accepted hex_update. -/
theorem C9_color_set_never_cascades_witness :
    wSessAnon.room_id = some "R1" ∧ wSessAnon.is_admin_room = false ∧
    ((handle_hex_update wSessAnon wStore3 [] [] 9 "2,2" "green").store.lines = wStore3.lines ∧
      (handle_hex_update wSessAnon wStore3 [] [] 9 "2,2" "green").store.units = wStore3.units ∧
      (∀ h ∈ wStore3.hexes, ¬(h.room_id = "R1" ∧ h.hex_key = "2,2") →
        h ∈ (handle_hex_update wSessAnon wStore3 [] [] 9 "2,2" "green").store.hexes) ∧
      (∀ h ∈ (handle_hex_update wSessAnon wStore3 [] [] 9 "2,2" "green").store.hexes,
        ¬(h.room_id = "R1" ∧ h.hex_key = "2,2") → h ∈ wStore3.hexes) ∧
      hexColor (handle_hex_update wSessAnon wStore3 [] [] 9 "2,2" "green").store "R1" "2,2"
        = (if "green" = defaultColor then none else some "green")) :=
  ⟨by decide, by decide,
    C9_color_set_never_cascades wSessAnon wStore3 [] [] 9 "2,2" "green" "R1"
      (by decide) (by decide)⟩

/-! ## C10: moving a nonexistent unit -/

theorem foldl_emits_all {β : Type} (P : Emit → Prop)
    (g : (Admins × List Emit) → β → (Admins × List Emit))
    (hg : ∀ acc b, ∀ e ∈ (g acc b).2, e ∈ acc.2 ∨ P e) (l : List β)
    (acc : Admins × List Emit) (hacc : ∀ e ∈ acc.2, P e) :
    ∀ e ∈ (l.foldl g acc).2, P e := by
  induction l generalizing acc with
  | nil => exact hacc
  | cons b t ih =>
    intro e he
    refine ih (g acc b) ?_ e he
    intro e2 he2
    rcases hg acc b e2 he2 with h | h
    · exact hacc e2 h
    · exact h

/-- Every event emitted by the admin notification step is an
admin_room_data_updated push. -/
theorem notify_emits_admin (cache : Cache) (admins : Admins) (rid : String) :
    ∀ e ∈ (notify_admin_rooms_of_room_update cache admins rid).2,
      e.event = "admin_room_data_updated" := by
  unfold notify_admin_rooms_of_room_update
  refine foldl_emits_all _ _ ?_ admins (admins, []) (by intro e he; simp at he)
  intro acc b e he
  revert he
  simp only
  cases dictGet? b.2.room_toggles rid with
  | none => intro he; exact Or.inl he
  | some tog =>
    by_cases hen : tog.enabled = true
    · simp only [hen, if_true]
      intro he
      rcases List.mem_append.mp he with h | h
      · exact Or.inl h
      · right
        have : e = ⟨"admin_room_data_updated", EmitTarget.toRoom b.1, none⟩ := by simpa using h
        rw [this]
    · simp only [hen, Bool.false_eq_true, if_false]
      intro he
      exact Or.inl he

theorem handle_unit_move_version (sess : Session) (s : Store) (cache : Cache)
    (admins : Admins) (now : Nat) (uid k r : String)
    (hr : sess.room_id = some r) (ha : sess.is_admin_room = false) :
    (handle_unit_move sess s cache admins now uid k).version
      = some (increment_room_version
          (update_room_activity (move_unit s r uid k now (some sess.user_name)) r now) r).2 := by
  unfold handle_unit_move
  rw [hr]
  simp only [ha, Bool.false_eq_true, if_false]

theorem handle_unit_move_emits (sess : Session) (s : Store) (cache : Cache)
    (admins : Admins) (now : Nat) (uid k r : String)
    (hr : sess.room_id = some r) (ha : sess.is_admin_room = false) :
    (handle_unit_move sess s cache admins now uid k).emits
      = ⟨"unit_moved", EmitTarget.toRoomSkip r sess.sid,
          some (increment_room_version
            (update_room_activity (move_unit s r uid k now (some sess.user_name)) r now) r).2⟩ ::
        (notify_admin_rooms_of_room_update
          (handle_unit_move sess s cache admins now uid k).cache admins r).2 := by
  unfold handle_unit_move
  rw [hr]
  simp only [ha, Bool.false_eq_true, if_false]

/-- C10: a unit_move for a unit id that is not in the room raises no
NotFound error: the unit table is byte-for-byte unchanged, the room version
is still incremented to v0+1, and a unit_moved event carrying the new
version is still broadcast to the other sessions of the room (followed only
by admin overlay pushes). -/
theorem C10_move_missing_unit_no_error (sess : Session) (s : Store) (cache : Cache)
    (admins : Admins) (now : Nat) (uid k r : String) (v0 : Nat)
    (hr : sess.room_id = some r) (ha : sess.is_admin_room = false)
    (hv : roomVersion s r = some v0)
    (habs : ∀ u ∈ s.units, ¬(u.room_id = r ∧ u.unit_id = uid)) :
    (handle_unit_move sess s cache admins now uid k).store.units = s.units ∧
    roomVersion (handle_unit_move sess s cache admins now uid k).store r = some (v0 + 1) ∧
    (handle_unit_move sess s cache admins now uid k).version = some (v0 + 1) ∧
    (∃ tail, (handle_unit_move sess s cache admins now uid k).emits
        = ⟨"unit_moved", EmitTarget.toRoomSkip r sess.sid, some (v0 + 1)⟩ :: tail ∧
      ∀ e ∈ tail, e.event = "admin_room_data_updated") := by
  obtain ⟨e1, e2⟩ := finalize_version s (move_unit s r uid k now (some sess.user_name)) r now v0
    (move_unit_rooms s r uid k now (some sess.user_name)) hv
  have hstore := handle_unit_move_store sess s cache admins now uid k r hr ha
  refine ⟨?_, ?_, ?_, ?_⟩
  · rw [hstore,
      (pipeline_tables (move_unit s r uid k now (some sess.user_name)) r now).2.2]
    show s.units.map (fun u => if unitMatches r uid u then
        { u with hex_key := k, moved_at := some now, moved_by := some sess.user_name }
        else u) = s.units
    have hfun : ∀ u ∈ s.units, (if unitMatches r uid u then
        ({ u with hex_key := k, moved_at := some now,
                  moved_by := some sess.user_name } : UnitRow)
        else u) = u := by
      intro u hu
      have hm : unitMatches r uid u = false := by
        unfold unitMatches
        have := habs u hu
        cases hr2 : u.room_id == r <;> cases hu2 : u.unit_id == uid <;> simp_all
      simp [hm]
    rw [List.map_congr_left hfun]
    simp
  · rw [hstore, e2]
  · rw [handle_unit_move_version sess s cache admins now uid k r hr ha, e1]
  · refine ⟨(notify_admin_rooms_of_room_update
        (handle_unit_move sess s cache admins now uid k).cache admins r).2, ?_, ?_⟩
    · rw [handle_unit_move_emits sess s cache admins now uid k r hr ha, e1]
    · exact notify_emits_admin _ admins r

/-- C10 witness: moving the missing unit id ghost in a one-unit room. -/
theorem C10_move_missing_unit_no_error_witness :
    wSessAnon.room_id = some "R1" ∧ wSessAnon.is_admin_room = false ∧
    roomVersion wStore4 "R1" = some 1 ∧
    (∀ u ∈ wStore4.units, ¬(u.room_id = "R1" ∧ u.unit_id = "ghost")) ∧
    ((handle_unit_move wSessAnon wStore4 wCache4 [] 9 "ghost" "2,2").store.units
        = wStore4.units ∧
      roomVersion (handle_unit_move wSessAnon wStore4 wCache4 [] 9 "ghost" "2,2").store "R1"
        = some 2 ∧
      (handle_unit_move wSessAnon wStore4 wCache4 [] 9 "ghost" "2,2").version = some 2 ∧
      (∃ tail, (handle_unit_move wSessAnon wStore4 wCache4 [] 9 "ghost" "2,2").emits
          = ⟨"unit_moved", EmitTarget.toRoomSkip "R1" wSessAnon.sid, some 2⟩ :: tail ∧
        ∀ e ∈ tail, e.event = "admin_room_data_updated")) :=
  ⟨by decide, by decide, by decide, by decide,
    C10_move_missing_unit_no_error wSessAnon wStore4 wCache4 [] 9 "ghost" "2,2" "R1" 1
      (by decide) (by decide) (by decide) (by decide)⟩

/-! ## C6: replace_room_state permission check -/

/-- The authorization condition of handle_replace_room_state: the session
is in a room that exists and is its owner or an authenticated admin. -/
def replaceAuthorized (sess : Session) (s : Store) (musers : List UserRow) : Bool :=
  match sess.room_id with
  | none => false
  | some r =>
    match get_room s r with
    | none => false
    | some meta =>
      ownerCheck meta.owner sess.username ||
        (sess.is_authenticated && is_admin_user s.users musers sess.username)

/-- C6: a replace_room_state request from a session that is not authorized
(neither the owner of its room nor an authenticated admin, including the
cases of no current room or a vanished room) is answered with one
room_error to that session alone, and the store and the cache are exactly
as before: no partial replacement. -/
theorem C6_replace_rejected_unauthorized (sess : Session) (s : Store) (cache : Cache)
    (admins : Admins) (musers : List UserRow) (now : Nat)
    (hex_data : List (String × HexInfo)) (lines : List LinePayload) (units : List ReplUnit)
    (hnot : replaceAuthorized sess s musers = false) :
    (handle_replace_room_state sess s cache admins musers now hex_data lines units).store = s ∧
    (handle_replace_room_state sess s cache admins musers now hex_data lines units).emits
      = [⟨"room_error", EmitTarget.toSid sess.sid, none⟩] ∧
    (handle_replace_room_state sess s cache admins musers now hex_data lines units).version
      = none ∧
    (handle_replace_room_state sess s cache admins musers now hex_data lines units).cache
      = cache := by
  unfold handle_replace_room_state
  unfold replaceAuthorized at hnot
  cases hrid : sess.room_id with
  | none => exact ⟨rfl, rfl, rfl, rfl⟩
  | some r =>
    rw [hrid] at hnot
    simp only at hnot ⊢
    cases hg : get_room s r with
    | none => exact ⟨rfl, rfl, rfl, rfl⟩
    | some meta =>
      rw [hg] at hnot
      simp only at hnot ⊢
      have hcond : (!(ownerCheck meta.owner sess.username ||
          (sess.is_authenticated && is_admin_user s.users musers sess.username))) = true := by
        rw [hnot]
        rfl
      simp [hcond]

/-- C6 witness: the anonymous non-owner session in the owned room R1. -/
theorem C6_replace_rejected_unauthorized_witness :
    replaceAuthorized wSessAnon wStore0 [wUserAlice, wUserRoot] = false ∧
    ((handle_replace_room_state wSessAnon wStore0 [] [] [wUserAlice, wUserRoot] 9
        [("1,1", ⟨some "red"⟩)] [] []).store = wStore0 ∧
      (handle_replace_room_state wSessAnon wStore0 [] [] [wUserAlice, wUserRoot] 9
        [("1,1", ⟨some "red"⟩)] [] []).emits
        = [⟨"room_error", EmitTarget.toSid wSessAnon.sid, none⟩] ∧
      (handle_replace_room_state wSessAnon wStore0 [] [] [wUserAlice, wUserRoot] 9
        [("1,1", ⟨some "red"⟩)] [] []).version = none ∧
      (handle_replace_room_state wSessAnon wStore0 [] [] [wUserAlice, wUserRoot] 9
        [("1,1", ⟨some "red"⟩)] [] []).cache = []) :=
  ⟨by decide,
    C6_replace_rejected_unauthorized wSessAnon wStore0 [] [] [wUserAlice, wUserRoot] 9
      [("1,1", ⟨some "red"⟩)] [] [] (by decide)⟩

/-! ## C8: non-admin room deletion -/

def wCache8 : Cache :=
  [("R1", { name := "Room One", hex_data := [], lines := [], units := [],
            users := ["s2"], last_activity := 0 })]

/-- C8 counterexample: the room R1 is owned by alice, yet the anonymous
non-owner session s2, alone in the room, deletes it successfully: the
handler emits room_deleted and removes the room row.  No ownership check
exists in handle_delete_room. -/
theorem C8_counterexample_non_owner_deletes :
    ownerCheck wRoom1.owner wSessAnon.username = false ∧
    wSessAnon.is_authenticated = false ∧
    (handle_delete_room wSessAnon wStore0 wCache8 []).emits
      = [⟨"room_deleted", EmitTarget.toSid "s2", none⟩] ∧
    (handle_delete_room wSessAnon wStore0 wCache8 []).store.rooms = [] := by
  refine ⟨by decide, by decide, by decide, by decide⟩

/-- C8 as amended: delete_room succeeds for any session that is in the room
whenever at most one active participant is present, with no ownership
requirement; with more than one active participant the request is rejected
with a room_error to the sender and the room and all its contents remain
stored. -/
theorem C8_delete_room_participants_only (sess : Session) (s : Store) (cache : Cache)
    (admins : Admins) (r : String) (meta : RoomRow)
    (hr : sess.room_id = some r) (hroom : get_room s r = some meta) :
    (((dictGet? cache r).map (fun cr => cr.users.length)).getD 0 > 1 →
      (handle_delete_room sess s cache admins).store = s ∧
      (handle_delete_room sess s cache admins).cache = cache ∧
      (handle_delete_room sess s cache admins).emits
        = [⟨"room_error", EmitTarget.toSid sess.sid, none⟩]) ∧
    (((dictGet? cache r).map (fun cr => cr.users.length)).getD 0 ≤ 1 →
      (handle_delete_room sess s cache admins).store.rooms
          = s.rooms.filter (fun rm => !(rm.room_id == r)) ∧
      (handle_delete_room sess s cache admins).store.hexes = s.hexes ∧
      (handle_delete_room sess s cache admins).store.lines = s.lines ∧
      (handle_delete_room sess s cache admins).store.units = s.units ∧
      (handle_delete_room sess s cache admins).emits
        = [⟨"room_deleted", EmitTarget.toSid sess.sid, none⟩]) := by
  unfold handle_delete_room
  rw [hr]
  simp only
  rw [hroom]
  simp only
  constructor
  · intro hgt
    rw [if_pos hgt]
    exact ⟨rfl, rfl, rfl⟩
  · intro hle
    rw [if_neg (by omega)]
    exact ⟨rfl, rfl, rfl, rfl, rfl⟩

/-- C8 witness: the owner alone in the room deletes it; the amended
statement applied at a concrete store and cache. -/
theorem C8_delete_room_participants_only_witness :
    wSessOwner.room_id = some "R1" ∧ get_room wStore0 "R1" = some wRoom1 ∧
    ((((dictGet? wCache8 "R1").map (fun cr => cr.users.length)).getD 0 > 1 →
      (handle_delete_room wSessOwner wStore0 wCache8 []).store = wStore0 ∧
      (handle_delete_room wSessOwner wStore0 wCache8 []).cache = wCache8 ∧
      (handle_delete_room wSessOwner wStore0 wCache8 []).emits
        = [⟨"room_error", EmitTarget.toSid wSessOwner.sid, none⟩]) ∧
    (((dictGet? wCache8 "R1").map (fun cr => cr.users.length)).getD 0 ≤ 1 →
      (handle_delete_room wSessOwner wStore0 wCache8 []).store.rooms
          = wStore0.rooms.filter (fun rm => !(rm.room_id == "R1")) ∧
      (handle_delete_room wSessOwner wStore0 wCache8 []).store.hexes = wStore0.hexes ∧
      (handle_delete_room wSessOwner wStore0 wCache8 []).store.lines = wStore0.lines ∧
      (handle_delete_room wSessOwner wStore0 wCache8 []).store.units = wStore0.units ∧
      (handle_delete_room wSessOwner wStore0 wCache8 []).emits
        = [⟨"room_deleted", EmitTarget.toSid wSessOwner.sid, none⟩])) :=
  ⟨by decide, by decide,
    C8_delete_room_participants_only wSessOwner wStore0 wCache8 [] "R1" wRoom1
      (by decide) (by decide)⟩

/-! ## C7: broadcast fan-out and the echo exceptions -/

/-- C7 counterexample: an accepted replace_room_state from the owner is
broadcast with room target R1 and no skipped sid, so the sender receives
the room_state_replaced event although the operation is not unit_add. -/
theorem C7_counterexample_replace_echoes_sender :
    (handle_replace_room_state wSessOwner wStore0 [] [] [wUserAlice, wUserRoot] 9
        [] [] []).version = some 2 ∧
    (handle_replace_room_state wSessOwner wStore0 [] [] [wUserAlice, wUserRoot] 9
        [] [] []).emits
      = [⟨"room_state_replaced", EmitTarget.toRoom "R1", some 2⟩] ∧
    EmitTarget.toRoom "R1" ≠ EmitTarget.toRoomSkip "R1" wSessOwner.sid := by
  refine ⟨by decide, by decide, by decide⟩

/-- C7 as amended: every accepted mutation that broadcasts emits its ...-ed
event once, followed only by admin overlay pushes; the hex_updated,
hex_erased, line_added, unit_moved and unit_deleted events go to the room
excluding the sender, while unit_added, unit_updated (from unit_update and
unit_reparent) and room_state_replaced go to the whole room, the sender
included. -/
theorem C7_fanout_echo_exceptions (sess : Session) (s : Store) (cache : Cache)
    (admins : Admins) (musers : List UserRow) (now : Nat) (op : MutOp) (r : String)
    (hr : sess.room_id = some r)
    (hacc : (runMut sess s cache admins musers now op).version.isSome)
    (hemits : (runMut sess s cache admins musers now op).emits ≠ []) :
    ∃ v tail, (runMut sess s cache admins musers now op).version = some v ∧
      (runMut sess s cache admins musers now op).emits
        = ⟨mutEventName op,
            (if echoesToSender op then EmitTarget.toRoom r
             else EmitTarget.toRoomSkip r sess.sid), some v⟩ :: tail ∧
      (∀ e ∈ tail, e.event = "admin_room_data_updated") := by
  cases op with
  | hexUpdate k c =>
    simp only [runMut, handle_hex_update, hr] at hacc hemits ⊢
    by_cases ha : sess.is_admin_room
    · simp [ha] at hacc
    · simp only [ha, Bool.false_eq_true, if_false] at hacc hemits ⊢
      exact ⟨_, _, rfl, rfl, notify_emits_admin _ admins r⟩
  | hexErase k =>
    simp only [runMut, handle_hex_erase, hr] at hacc hemits ⊢
    by_cases ha : sess.is_admin_room
    · simp [ha] at hacc
    · simp only [ha, Bool.false_eq_true, if_false] at hacc hemits ⊢
      cases hst : get_room_state
          (increment_room_version
            (update_room_activity (delete_lines_by_hex (erase_hex s r k) r k) r now) r).1 r with
      | none => rw [hst] at hemits; simp at hemits
      | some st => exact ⟨_, _, rfl, rfl, notify_emits_admin _ admins r⟩
  | lineAdd line =>
    simp only [runMut, handle_line_add, hr] at hacc hemits ⊢
    by_cases ha : sess.is_admin_room
    · simp [ha] at hacc
    · simp only [ha, Bool.false_eq_true, if_false] at hacc hemits ⊢
      exact ⟨_, _, rfl, rfl, notify_emits_admin _ admins r⟩
  | unitAdd fresh u =>
    simp only [runMut, handle_unit_add, hr] at hacc hemits ⊢
    by_cases ha : sess.is_admin_room
    · simp [ha] at hacc
    · simp only [ha, Bool.false_eq_true, if_false] at hacc hemits ⊢
      exact ⟨_, _, rfl, rfl, notify_emits_admin _ admins r⟩
  | unitUpdate uid patch =>
    simp only [runMut, handle_unit_update, hr] at hacc hemits ⊢
    by_cases ha : sess.is_admin_room
    · simp [ha] at hacc
    · simp only [ha, Bool.false_eq_true, if_false] at hacc hemits ⊢
      by_cases huid : uid = ""
      · simp [huid] at hacc
      · simp only [huid, if_false] at hacc hemits ⊢
        cases hst : get_unit
            (increment_room_version
              (update_room_activity (update_unit s r uid patch (some sess.user_name)) r now)
              r).1 r uid with
        | none => rw [hst] at hemits; simp at hemits
        | some w => exact ⟨_, _, rfl, rfl, notify_emits_admin _ admins r⟩
  | unitReparent uid pid hk =>
    simp only [runMut, handle_unit_reparent, hr] at hacc hemits ⊢
    by_cases ha : sess.is_admin_room
    · simp [ha] at hacc
    · simp only [ha, Bool.false_eq_true, if_false] at hacc hemits ⊢
      by_cases huid : uid = ""
      · simp [huid] at hacc
      · simp only [huid, if_false] at hacc hemits ⊢
        cases hst : get_unit
            (increment_room_version
              (update_room_activity (reparent_unit s r uid pid hk (some sess.user_name)) r now)
              r).1 r uid with
        | none => rw [hst] at hemits; simp at hemits
        | some w => exact ⟨_, _, rfl, rfl, notify_emits_admin _ admins r⟩
  | unitMove uid hk =>
    simp only [runMut, handle_unit_move, hr] at hacc hemits ⊢
    by_cases ha : sess.is_admin_room
    · simp [ha] at hacc
    · simp only [ha, Bool.false_eq_true, if_false] at hacc hemits ⊢
      exact ⟨_, _, rfl, rfl, notify_emits_admin _ admins r⟩
  | unitDelete uid =>
    simp only [runMut, handle_unit_delete, hr] at hacc hemits ⊢
    by_cases ha : sess.is_admin_room
    · simp [ha] at hacc
    · simp only [ha, Bool.false_eq_true, if_false] at hacc hemits ⊢
      exact ⟨_, _, rfl, rfl, notify_emits_admin _ admins r⟩
  | replaceState hd ls us =>
    simp only [runMut, handle_replace_room_state, hr] at hacc hemits ⊢
    cases hg : get_room s r with
    | none => rw [hg] at hacc; simp at hacc
    | some meta =>
      rw [hg] at hacc hemits
      simp only at hacc hemits ⊢
      by_cases hperm : (!(ownerCheck meta.owner sess.username ||
          (sess.is_authenticated && is_admin_user s.users musers sess.username))) = true
      · rw [if_pos hperm] at hacc; simp at hacc
      · rw [if_neg hperm] at hacc hemits ⊢
        cases hst : get_room_state
            (increment_room_version
              (update_room_activity
                (replace_room_state s r hd ls us now (some sess.user_name)) r now) r).1 r with
        | none => rw [hst] at hemits; simp at hemits
        | some st => exact ⟨_, _, rfl, rfl, notify_emits_admin _ admins r⟩

/-- C7 witness: an accepted hex_update excludes the sender (and, at the
same concrete input, the unit_added echo-back of unit_add, through the
dispatcher). -/
theorem C7_fanout_echo_exceptions_witness :
    wSessAnon.room_id = some "R1" ∧
    (runMut wSessAnon wStore0 [] [] [] 9 (MutOp.hexUpdate "1,1" "red")).version.isSome ∧
    (runMut wSessAnon wStore0 [] [] [] 9 (MutOp.hexUpdate "1,1" "red")).emits ≠ [] ∧
    (∃ v tail, (runMut wSessAnon wStore0 [] [] [] 9 (MutOp.hexUpdate "1,1" "red")).version
          = some v ∧
      (runMut wSessAnon wStore0 [] [] [] 9 (MutOp.hexUpdate "1,1" "red")).emits
        = ⟨mutEventName (MutOp.hexUpdate "1,1" "red"),
            (if echoesToSender (MutOp.hexUpdate "1,1" "red") then EmitTarget.toRoom "R1"
             else EmitTarget.toRoomSkip "R1" wSessAnon.sid), some v⟩ :: tail ∧
      (∀ e ∈ tail, e.event = "admin_room_data_updated")) :=
  ⟨by decide, by decide, by decide,
    C7_fanout_echo_exceptions wSessAnon wStore0 [] [] [] 9 (MutOp.hexUpdate "1,1" "red") "R1"
      (by decide) (by decide) (by decide)⟩

/-! ## C5: admin aggregation -/

theorem dictGet?_set_self {α : Type} (d : List (String × α)) (k : String) (v : α) :
    dictGet? (dictSet d k v) k = some v := by
  unfold dictSet
  by_cases hany : d.any (fun p => p.1 == k) = true
  · rw [if_pos hany]
    set f : String × α → String × α := fun p => if p.1 == k then (k, v) else p with hf
    have hinv : ∀ p : String × α, ((f p).1 == k) = (p.1 == k) := by
      intro p
      simp only [hf]
      split
      · next h => simp_all
      · rfl
    unfold dictGet?
    rw [find?_map_invariant f _ _ hinv]
    obtain ⟨p0, hp0mem, hp0⟩ := List.any_eq_true.mp hany
    obtain ⟨p1, hfind⟩ : ∃ p1, d.find? (fun p => p.1 == k) = some p1 := by
      cases hfd : d.find? (fun p => p.1 == k) with
      | none => rw [List.find?_eq_none] at hfd; exact absurd hp0 (by simpa using hfd p0 hp0mem)
      | some p1 => exact ⟨p1, rfl⟩
    rw [hfind]
    have hp1 : (p1.1 == k) = true := by simpa using List.find?_some hfind
    simp [hf, hp1]
    have e : p1.1 = k := by simpa using hp1
    rw [if_pos e]
  · rw [if_neg hany]
    unfold dictGet?
    rw [List.find?_append]
    have hnone : d.find? (fun p => p.1 == k) = none := by
      rw [List.find?_eq_none]
      intro p hp hcp
      exact hany (List.any_eq_true.mpr ⟨p, hp, hcp⟩)
    rw [hnone, Option.none_or]
    simp

theorem dictGet?_set_other {α : Type} (d : List (String × α)) (k0 : String) (v : α)
    (k : String) (hk : (k0 == k) = false) :
    dictGet? (dictSet d k0 v) k = dictGet? d k := by
  unfold dictSet
  by_cases hany : d.any (fun p => p.1 == k0) = true
  · rw [if_pos hany]
    set f : String × α → String × α := fun p => if p.1 == k0 then (k0, v) else p with hf
    have hinv : ∀ p : String × α, ((f p).1 == k) = (p.1 == k) := by
      intro p
      simp only [hf]
      split
      · next h =>
        have e : p.1 = k0 := by simpa using h
        rw [e]
      · rfl
    unfold dictGet?
    rw [find?_map_invariant f _ _ hinv]
    cases hfd : d.find? (fun p => p.1 == k) with
    | none => rfl
    | some p1 =>
      have hp1k : (p1.1 == k) = true := by simpa using List.find?_some hfd
      have e1 : p1.1 = k := by simpa using hp1k
      have e2 : k0 ≠ k := by simpa using hk
      have hp1k0 : (p1.1 == k0) = false := by
        rw [e1]
        simpa using fun hcon => e2 hcon.symm
      simp [hf, hp1k0]
      have e3 : ¬ p1.1 = k0 := by simpa using hp1k0
      rw [if_neg e3]
  · rw [if_neg hany]
    unfold dictGet?
    rw [List.find?_append]
    have hone : List.find? (fun p => p.1 == k) [(k0, v)] = none := by
      simp [hk]
    rw [hone]
    cases d.find? (fun p => p.1 == k) <;> rfl

theorem dictGet?_modify_other {α : Type} (d : List (String × α)) (k0 : String) (f : α → α)
    (k : String) (hk : (k0 == k) = false) :
    dictGet? (dictModify d k0 f) k = dictGet? d k := by
  unfold dictGet? dictModify
  set g : String × α → String × α := fun p => if p.1 == k0 then (p.1, f p.2) else p with hg
  have hinv : ∀ p : String × α, ((g p).1 == k) = (p.1 == k) := by
    intro p
    simp only [hg]
    split <;> rfl
  rw [find?_map_invariant g _ _ hinv]
  cases hfd : d.find? (fun p => p.1 == k) with
  | none => rfl
  | some p1 =>
    have hp1k : (p1.1 == k) = true := by simpa using List.find?_some hfd
    have e1 : p1.1 = k := by simpa using hp1k
    have e2 : k0 ≠ k := by simpa using hk
    have hp1k0 : (p1.1 == k0) = false := by
      rw [e1]
      simpa using fun hcon => e2 hcon.symm
    simp [hg, hp1k0]
    have e3 : ¬ p1.1 = k0 := by simpa using hp1k0
    rw [if_neg e3]

theorem dictGet?_eq_none {α : Type} (d : List (String × α)) (k : String)
    (h : ∀ p ∈ d, (p.1 == k) = false) : dictGet? d k = none := by
  have hfd : d.find? (fun p => p.1 == k) = none := by
    rw [List.find?_eq_none]
    intro p hp
    simp [h p hp]
  unfold dictGet?
  rw [hfd]
  rfl

/-- One enabled room's contribution records at one cell key, read directly
from the store: present exactly when the room is enabled, exists, and has a
truthy non-default stored color at the key. -/
def roomContributionAt (s : Store) (k : String) (p : String × RoomToggle) :
    List RoomContribution :=
  if p.2.enabled then
    match get_room s p.1, hexColor s p.1 k with
    | some meta, some c =>
      if c ≠ "" ∧ c ≠ defaultColor then [⟨p.1, meta.name, c⟩] else []
    | _, _ => []
  else []

/-- All contribution records at one key, in toggle iteration order: one
record per enabled room with a non-default color at the key. -/
def enabledContributors (s : Store) (toggles : List (String × RoomToggle)) (k : String) :
    List RoomContribution :=
  toggles.flatMap (roomContributionAt s k)

/-- How one batch of contributions extends a prior composite entry: the
first contribution creates the entry and wins the primary slot while the
primary is still the default; every contribution is appended to the
contributor list. -/
def entryCombine (prior : Option AggEntry) (cs : List RoomContribution) : Option AggEntry :=
  match prior, cs with
  | none, [] => none
  | some e, [] => some e
  | none, c :: cs => some ⟨c.fillColor, c :: cs⟩
  | some e, c :: cs =>
    some ⟨if e.fillColor = defaultColor then c.fillColor else e.fillColor,
          e.rooms ++ (c :: cs)⟩

theorem entryCombine_nil (prior : Option AggEntry) : entryCombine prior [] = prior := by
  cases prior <;> rfl

theorem entryCombine_step (prior : Option AggEntry) (x : RoomContribution)
    (cs : List RoomContribution) (hx : x.fillColor ≠ defaultColor) :
    entryCombine (entryCombine prior [x]) cs = entryCombine prior (x :: cs) := by
  cases prior with
  | none =>
    cases cs with
    | nil => rfl
    | cons c2 cs2 =>
      simp only [entryCombine]
      rw [if_neg hx]
      rfl
  | some e =>
    cases cs with
    | nil => rfl
    | cons c2 cs2 =>
      simp only [entryCombine]
      have hne : ¬((if e.fillColor = defaultColor then x.fillColor else e.fillColor)
          = defaultColor) := by
        by_cases hdef : e.fillColor = defaultColor
        · rw [if_pos hdef]
          exact hx
        · rw [if_neg hdef]
          exact hdef
      rw [if_neg hne, List.append_assoc]
      rfl

/-- mergeHexEntry at its own key behaves as entryCombine with the single
contribution of this room. -/
theorem mergeHexEntry_self (agg : List (String × AggEntry)) (rid rname k0 c0 : String)
    (hc : c0 ≠ "" ∧ c0 ≠ defaultColor) :
    dictGet? (mergeHexEntry agg rid rname k0 c0) k0
      = entryCombine (dictGet? agg k0) [⟨rid, rname, c0⟩] := by
  unfold mergeHexEntry
  rw [if_pos hc]
  cases hprior : dictGet? agg k0 with
  | none =>
    simp only [Option.isSome_none, Bool.false_eq_true, if_false]
    rw [dictGet?_modify_self, dictGet?_set_self]
    simp only [Option.map_some', entryCombine]
    congr 1
    dsimp only
    split <;> rfl
  | some e =>
    simp only [Option.isSome_some, if_true]
    rw [dictGet?_modify_self, hprior]
    simp only [Option.map_some', entryCombine]
    congr 1
    dsimp only
    by_cases hdef : e.fillColor = defaultColor
    · rw [if_pos hdef, if_pos hdef]
    · rw [if_neg hdef, if_neg hdef]

/-- mergeHexEntry leaves every other key untouched. -/
theorem mergeHexEntry_other (agg : List (String × AggEntry)) (rid rname k0 c0 k : String)
    (hk : (k0 == k) = false) :
    dictGet? (mergeHexEntry agg rid rname k0 c0) k = dictGet? agg k := by
  unfold mergeHexEntry
  by_cases hprior : (dictGet? agg k0).isSome = true
  · rw [if_pos hprior]
    by_cases hcc : c0 ≠ "" ∧ c0 ≠ defaultColor
    · rw [if_pos hcc, dictGet?_modify_other _ _ _ _ hk]
    · rw [if_neg hcc]
  · rw [if_neg hprior]
    by_cases hcc : c0 ≠ "" ∧ c0 ≠ defaultColor
    · rw [if_pos hcc, dictGet?_modify_other _ _ _ _ hk, dictGet?_set_other _ _ _ _ hk]
    · rw [if_neg hcc, dictGet?_set_other _ _ _ _ hk]

/-- Contribution records of one room given its stored color at a key. -/
def contribOfColor (rid rname : String) (oc : Option String) : List RoomContribution :=
  match oc with
  | some c => [⟨rid, rname, c⟩]
  | none => []

theorem contribOfColor_none (rid rname : String) :
    contribOfColor rid rname none = [] := rfl

theorem contribOfColor_some (rid rname c : String) :
    contribOfColor rid rname (some c) = [⟨rid, rname, c⟩] := rfl

/-- The hex merge fold of one room combines, at every key, the prior entry
with the contribution read off the room's snapshot dict. -/
theorem mergeHexFold_lookup (rid rname : String) : ∀ (hl : List (String × String)),
    (hl.map Prod.fst).Nodup → (∀ p ∈ hl, p.2 ≠ "" ∧ p.2 ≠ defaultColor) →
    ∀ (agg : List (String × AggEntry)) (k : String),
      dictGet? (hl.foldl (fun ag p => mergeHexEntry ag rid rname p.1 p.2) agg) k
        = entryCombine (dictGet? agg k) (contribOfColor rid rname (dictGet? hl k)) := by
  intro hl
  induction hl with
  | nil =>
    intro _ _ agg k
    simp only [List.foldl_nil]
    show dictGet? agg k
      = entryCombine (dictGet? agg k) (contribOfColor rid rname none)
    rw [contribOfColor_none, entryCombine_nil]
  | cons p t ih =>
    intro hnd hcol agg k
    obtain ⟨k0, c0⟩ := p
    have hnd2 : (∀ x : String, (k0, x) ∉ t) ∧ (List.map Prod.fst t).Nodup := by
      simpa using hnd
    have hndt : (t.map Prod.fst).Nodup := hnd2.2
    have hk0nt : ∀ q ∈ t, (q.1 == k0) = false := by
      intro q hq
      have hne : q.1 ≠ k0 := by
        intro hcon
        have hq2 : (q.1, q.2) ∈ t := by simpa using hq
        rw [hcon] at hq2
        exact hnd2.1 q.2 hq2
      simpa using hne
    have hcolt : ∀ q ∈ t, q.2 ≠ "" ∧ q.2 ≠ defaultColor :=
      fun q hq => hcol q (List.mem_cons_of_mem _ hq)
    have hc0 : c0 ≠ "" ∧ c0 ≠ defaultColor := by
      have := hcol (k0, c0) (List.mem_cons_self _ _)
      simpa using this
    simp only [List.foldl_cons]
    rw [ih hndt hcolt (mergeHexEntry agg rid rname k0 c0) k]
    by_cases hkk : (k0 == k) = true
    · have ek : k0 = k := by simpa using hkk
      subst ek
      rw [dictGet?_eq_none t k0 hk0nt, contribOfColor_none, entryCombine_nil,
          mergeHexEntry_self agg rid rname k0 c0 hc0,
          dictGet?_cons_pos k0 c0 t k0 (by simp), contribOfColor_some]
    · have hkk2 : (k0 == k) = false := by simpa using hkk
      rw [dictGet?_cons_neg k0 c0 t k hkk2,
          mergeHexEntry_other agg rid rname k0 c0 k hkk2]

theorem room_snapshot_keys_nodup (s : Store) (rid : String)
    (hpk : (s.hexes.map (fun h => (h.room_id, h.hex_key))).Nodup) :
    (((s.hexes.filter (fun h => h.room_id == rid)).map
        (fun h => (h.hex_key, h.fill_color))).map Prod.fst).Nodup := by
  have hfp : ((s.hexes.filter (fun h => h.room_id == rid)).map
      (fun h => (h.room_id, h.hex_key))).Nodup :=
    List.Nodup.sublist (List.Sublist.map _ (List.filter_sublist _)) hpk
  have hsnd : (((s.hexes.filter (fun h => h.room_id == rid)).map
      (fun h => (h.room_id, h.hex_key))).map Prod.snd).Nodup := by
    refine List.Nodup.map_on ?_ hfp
    intro x hx y hy hxy
    obtain ⟨hx2, hxmem, hxeq⟩ := List.mem_map.mp hx
    obtain ⟨hy2, hymem, hyeq⟩ := List.mem_map.mp hy
    have hxr : hx2.room_id = rid := by
      have := (List.mem_filter.mp hxmem).2
      simpa using this
    have hyr : hy2.room_id = rid := by
      have := (List.mem_filter.mp hymem).2
      simpa using this
    rw [← hxeq, ← hyeq] at hxy ⊢
    have hkeq : hx2.hex_key = hy2.hex_key := hxy
    rw [Prod.mk.injEq]
    exact ⟨by rw [hxr, hyr], hkeq⟩
  rw [List.map_map] at hsnd ⊢
  exact hsnd

theorem hexColor_mem (s : Store) (rid k c : String) (h : hexColor s rid k = some c) :
    ∃ hrow ∈ s.hexes, hrow.fill_color = c := by
  unfold hexColor at h
  cases hfd : s.hexes.find? (hexMatches rid k) with
  | none => rw [hfd] at h; simp at h
  | some hrow =>
    rw [hfd] at h
    simp only [Option.map_some', Option.some.injEq] at h
    exact ⟨hrow, List.mem_of_find?_eq_some hfd, h⟩

theorem foldl_aggStep_none (s : Store) (l : List (String × RoomToggle)) :
    l.foldl (aggStep s) none = none := by
  induction l with
  | nil => rfl
  | cons p t ih =>
    simp only [List.foldl_cons]
    have hstep : aggStep s none p = none := rfl
    rw [hstep]
    exact ih

theorem agg_fold_lookup (s : Store)
    (hpk : (s.hexes.map (fun h => (h.room_id, h.hex_key))).Nodup)
    (hinv : ∀ h ∈ s.hexes, h.fill_color ≠ "" ∧ h.fill_color ≠ defaultColor) :
    ∀ (toggles : List (String × RoomToggle)) (a A : AggData),
      toggles.foldl (aggStep s) (some a) = some A →
      ∀ k, dictGet? A.hex_data k
        = entryCombine (dictGet? a.hex_data k) (enabledContributors s toggles k) := by
  intro toggles
  induction toggles with
  | nil =>
    intro a A hfold k
    have ha : a = A := by simpa using hfold
    subst ha
    rw [show enabledContributors s [] k = [] from rfl, entryCombine_nil]
  | cons p t ih =>
    intro a A hfold k
    obtain ⟨rid, tog⟩ := p
    simp only [List.foldl_cons] at hfold
    have hcons : enabledContributors s ((rid, tog) :: t) k
        = roomContributionAt s k (rid, tog) ++ enabledContributors s t k := by
      unfold enabledContributors
      rw [List.flatMap_cons]
    by_cases hen : tog.enabled = true
    · cases hgr : get_room s rid with
      | none =>
        have hgs : get_room_state s rid = none := by
          unfold get_room_state
          rw [hgr]
          rfl
        have hstep : aggStep s (some a) (rid, tog) = none := by
          unfold aggStep
          simp only [Option.some_bind, hen, if_true]
          rw [hgs]
        rw [hstep, foldl_aggStep_none] at hfold
        exact absurd hfold (by simp)
      | some meta =>
        have hgs : get_room_state s rid
            = some { name := meta.name,
                     hex_data := (s.hexes.filter (fun h => h.room_id == rid)).map
                       (fun h => (h.hex_key, h.fill_color)),
                     lines := (s.lines.filter (fun l => l.room_id == rid)).map
                       (fun l => l.payload),
                     units := (s.units.filter (fun u => u.room_id == rid)).map unitView,
                     created_at := meta.created_at, last_activity := meta.last_activity,
                     owner := meta.owner, has_password := meta.has_password,
                     password_hash := meta.password_hash, version := meta.version } := by
          unfold get_room_state
          rw [hgr]
          rfl
        have hstep : aggStep s (some a) (rid, tog)
            = some (mergeRoomIntoAgg a rid meta.name
                { name := meta.name,
                  hex_data := (s.hexes.filter (fun h => h.room_id == rid)).map
                    (fun h => (h.hex_key, h.fill_color)),
                  lines := (s.lines.filter (fun l => l.room_id == rid)).map
                    (fun l => l.payload),
                  units := (s.units.filter (fun u => u.room_id == rid)).map unitView,
                  created_at := meta.created_at, last_activity := meta.last_activity,
                  owner := meta.owner, has_password := meta.has_password,
                  password_hash := meta.password_hash, version := meta.version }) := by
          unfold aggStep
          simp only [Option.some_bind, hen, if_true]
          rw [hgs, hgr]
        rw [hstep] at hfold
        have ihk := ih _ A hfold k
        rw [ihk]
        have hcolors : ∀ q ∈ (s.hexes.filter (fun h => h.room_id == rid)).map
            (fun h => (h.hex_key, h.fill_color)), q.2 ≠ "" ∧ q.2 ≠ defaultColor := by
          intro q hq
          obtain ⟨h2, hmem, heq⟩ := List.mem_map.mp hq
          have hm := (List.mem_filter.mp hmem).1
          rw [← heq]
          exact hinv h2 hm
        have hmerge : dictGet? (mergeRoomIntoAgg a rid meta.name
              { name := meta.name,
                hex_data := (s.hexes.filter (fun h => h.room_id == rid)).map
                  (fun h => (h.hex_key, h.fill_color)),
                lines := (s.lines.filter (fun l => l.room_id == rid)).map
                  (fun l => l.payload),
                units := (s.units.filter (fun u => u.room_id == rid)).map unitView,
                created_at := meta.created_at, last_activity := meta.last_activity,
                owner := meta.owner, has_password := meta.has_password,
                password_hash := meta.password_hash,
                version := meta.version }).hex_data k
            = entryCombine (dictGet? a.hex_data k)
                (contribOfColor rid meta.name (hexColor s rid k)) := by
          show dictGet? (((s.hexes.filter (fun h => h.room_id == rid)).map
              (fun h => (h.hex_key, h.fill_color))).foldl
                (fun ag q => mergeHexEntry ag rid meta.name q.1 q.2) a.hex_data) k = _
          rw [mergeHexFold_lookup rid meta.name _
              (room_snapshot_keys_nodup s rid hpk) hcolors a.hex_data k]
          rw [dictGet?_hexlist]
          rfl
        rw [hmerge, hcons]
        have hcontr : roomContributionAt s k (rid, tog)
            = contribOfColor rid meta.name (hexColor s rid k) := by
          unfold roomContributionAt
          simp only [hen, if_true]
          rw [hgr]
          cases hhc : hexColor s rid k with
          | none => rfl
          | some c =>
            obtain ⟨hrow, hm, hceq⟩ := hexColor_mem s rid k c hhc
            have hok := hinv hrow hm
            rw [hceq] at hok
            simp only
            rw [if_pos hok]
            rfl
        rw [hcontr]
        cases hhc : hexColor s rid k with
        | none =>
          rw [contribOfColor_none, entryCombine_nil, List.nil_append]
        | some c =>
          rw [contribOfColor_some]
          have hcd : c ≠ defaultColor := by
            obtain ⟨hrow, hm, hceq⟩ := hexColor_mem s rid k c hhc
            have hok := (hinv hrow hm).2
            rw [hceq] at hok
            exact hok
          rw [entryCombine_step _ _ _ hcd]
          rfl
    · have hstep : aggStep s (some a) (rid, tog) = some a := by
        unfold aggStep
        simp only [Option.some_bind]
        rw [if_neg hen]
      rw [hstep] at hfold
      have ihk := ih a A hfold k
      rw [ihk, hcons]
      have hnone : roomContributionAt s k (rid, tog) = [] := by
        unfold roomContributionAt
        rw [if_neg hen]
      rw [hnone, List.nil_append]

/-- C5: for every admin toggle map and cell key, the composite entry at the
key has as primary fillColor the color of the first enabled room in
iteration order with a (non-default) stored color there, and its per-room
contributor list holds exactly one record (room id, room name, color) for
every enabled room with a non-default color at that key, in order; keys no
enabled room colors have no entry. -/
theorem C5_admin_aggregation_first_enabled_wins (s : Store) (admins : Admins)
    (aid : String) (ar : AdminRoom) (A : AggData)
    (har : dictGet? admins aid = some ar)
    (hpk : (s.hexes.map (fun h => (h.room_id, h.hex_key))).Nodup)
    (hinv : ∀ h ∈ s.hexes, h.fill_color ≠ "" ∧ h.fill_color ≠ defaultColor)
    (hA : get_aggregated_room_data s admins aid = some A) (k : String) :
    dictGet? A.hex_data k
      = match enabledContributors s ar.room_toggles k with
        | [] => none
        | c :: cs => some ⟨c.fillColor, c :: cs⟩ := by
  unfold get_aggregated_room_data at hA
  rw [har] at hA
  have h := agg_fold_lookup s hpk hinv ar.room_toggles ⟨[], [], []⟩ A hA k
  rw [h]
  show entryCombine none (enabledContributors s ar.room_toggles k) = _
  cases enabledContributors s ar.room_toggles k with
  | nil => rfl
  | cons c cs => rfl

def wRoomA : RoomRow := ⟨"RA", "Room A", none, false, none, 0, 0, 1⟩

def wRoomB : RoomRow := ⟨"RB", "Room B", none, false, none, 0, 0, 1⟩

def wStore5 : Store :=
  ⟨[wRoomA, wRoomB],
   [⟨"RA", "5,5", "red", 0, none⟩, ⟨"RB", "5,5", "blue", 0, none⟩], [], [], []⟩

def wToggleOn : RoomToggle := ⟨true, "", 0, 0, 0⟩

def wAdminRoom : AdminRoom := ⟨[("RA", wToggleOn), ("RB", wToggleOn)]⟩

def wAdmins : Admins := [("ADM", wAdminRoom)]

def wAgg5 : AggData :=
  (get_aggregated_room_data wStore5 wAdmins "ADM").getD ⟨[], [], []⟩

/-- C5 witness: the example from the spec, room A (cell 5,5 red) enabled
before room B (cell 5,5 blue): the composite cell 5,5 has primary color red
and contributors A (red) and B (blue). -/
theorem C5_admin_aggregation_first_enabled_wins_witness :
    dictGet? wAdmins "ADM" = some wAdminRoom ∧
    (wStore5.hexes.map (fun h => (h.room_id, h.hex_key))).Nodup ∧
    (∀ h ∈ wStore5.hexes, h.fill_color ≠ "" ∧ h.fill_color ≠ defaultColor) ∧
    get_aggregated_room_data wStore5 wAdmins "ADM" = some wAgg5 ∧
    (dictGet? wAgg5.hex_data "5,5"
      = match enabledContributors wStore5 wAdminRoom.room_toggles "5,5" with
        | [] => none
        | c :: cs => some ⟨c.fillColor, c :: cs⟩) ∧
    enabledContributors wStore5 wAdminRoom.room_toggles "5,5"
      = [⟨"RA", "Room A", "red"⟩, ⟨"RB", "Room B", "blue"⟩] ∧
    dictGet? wAgg5.hex_data "5,5"
      = some ⟨"red", [⟨"RA", "Room A", "red"⟩, ⟨"RB", "Room B", "blue"⟩]⟩ :=
  ⟨by decide, by decide, by decide, by decide,
    C5_admin_aggregation_first_enabled_wins wStore5 wAdmins "ADM" wAdminRoom wAgg5
      (by decide) (by decide) (by decide) (by decide) "5,5",
    by decide, by decide⟩
